import Mathlib

/-!
Verification of the pic-gate image gateway core against its specification.

The development shallowly embeds the data-plane components of the gateway:
the payload rewriter (`app/services/payload_rewriter.py`), the tiered image
store (`app/services/image_store.py`), the cleanup passes
(`app/services/cleanup.py`) and the chat-completion retry / streaming
adapters (`app/routers/gateway_openai.py`).

Conventions used throughout:
* Python strings are Lean `String`s; the algorithmic helpers work over
  `List Char` (one entry per Python character).
* Python `bytes` are `List Nat` (each entry < 256).
* `datetime` values are `Int` seconds; `timedelta(hours=h)` is `h * 3600`
  and `timedelta(days=d)` is `d * 86400`.
* Database rows, the image directory and the R2 bucket are explicit fields
  of a `StoreState` value; awaited I/O becomes explicit state passing.
* Exceptions that the Python code lets escape become `Except String`;
  exceptions that a surrounding `try/except` swallows are folded into the
  `Option`/pass-through result exactly where the handler sits in the source.
* Python floats in the quota pass are modelled as exact rationals (`ℚ`);
  the divisions by `1024 * 1024` and the `* 0.9` are exact in the source's
  value range of interest.
-/

namespace PicGate

/-! ## Python string primitives -/

/-- The characters stripped by Python `str.strip()` (ASCII whitespace). -/
def isPySpace (c : Char) : Bool :=
  c = ' ' || c = '\t' || c = '\n' || c = '\x0d' || c = '\x0b' || c = '\x0c'

/-- Python `str.strip()` on a character list. -/
def pyStripList (cs : List Char) : List Char :=
  ((cs.dropWhile isPySpace).reverse.dropWhile isPySpace).reverse

/-- Python `str.strip()`. -/
def pyStrip (s : String) : String :=
  String.mk (pyStripList s.toList)

/-- Boolean prefix test on character lists. -/
def listIsPrefix : List Char → List Char → Bool
  | [], _ => true
  | _ :: _, [] => false
  | a :: as, b :: bs => a = b && listIsPrefix as bs

theorem listIsPrefix_length :
    ∀ {as bs : List Char}, listIsPrefix as bs = true → as.length ≤ bs.length := by
  intro as
  induction as with
  | nil => intro bs _; simp
  | cons a as ih =>
    intro bs h
    cases bs with
    | nil => simp [listIsPrefix] at h
    | cons b bs =>
      simp [listIsPrefix] at h
      have := ih h.2
      simp
      omega

theorem listIsPrefix_append (as bs : List Char) :
    listIsPrefix as (as ++ bs) = true := by
  induction as with
  | nil => simp [listIsPrefix]
  | cons a as ih => simp [listIsPrefix, ih]

/-- Python `str.startswith(p)`. -/
def pyStartsWith (s p : String) : Bool :=
  listIsPrefix p.toList s.toList

/-- Python slice `s[:n]` (first `n` characters). -/
def pyTake (s : String) (n : Nat) : String :=
  String.mk (s.toList.take n)

/-- Python `len(s)` (number of characters). -/
def pyLen (s : String) : Nat :=
  s.toList.length

/-- Python `s.count(c)` for a single-character needle. -/
def pyCountChar (s : String) (c : Char) : Nat :=
  s.toList.countP (· = c)

/-- Python `s.lower()` restricted to ASCII letters (the inputs the code
feeds it are ASCII URLs and tag names). -/
def pyLowerChar (c : Char) : Char :=
  if 'A' ≤ c ∧ c ≤ 'Z' then Char.ofNat (c.toNat + 32) else c

/-- Python `s.lower()`. -/
def pyLower (s : String) : String :=
  String.mk (s.toList.map pyLowerChar)

/-- Python `needle in hay` on character lists (substring containment). -/
def pyContainsList (hay needle : List Char) : Bool :=
  listIsPrefix needle hay ||
    match hay with
    | [] => false
    | _ :: t => pyContainsList t needle

/-- Python `needle in s` (substring containment). -/
def pyContains (s needle : String) : Bool :=
  pyContainsList s.toList needle.toList

/-- Split a character list at the first occurrence of `stop`:
`splitAtFirst stop cs = some (before, after)` with
`cs = before ++ stop :: after` and `stop ∉ before`. -/
def splitAtFirst (stop : Char) : List Char → Option (List Char × List Char)
  | [] => none
  | c :: rest =>
    if c = stop then some ([], rest)
    else match splitAtFirst stop rest with
      | some (pre, post) => some (c :: pre, post)
      | none => none

theorem splitAtFirst_length {stop : Char} :
    ∀ {cs pre post : List Char}, splitAtFirst stop cs = some (pre, post) →
      cs.length = pre.length + 1 + post.length := by
  intro cs
  induction cs with
  | nil => intro pre post h; simp [splitAtFirst] at h
  | cons c rest ih =>
    intro pre post h
    by_cases hc : c = stop
    · simp [splitAtFirst, hc] at h
      obtain ⟨h1, h2⟩ := h
      subst h1; subst h2; simp; omega
    · simp [splitAtFirst, hc] at h
      cases hsplit : splitAtFirst stop rest with
      | none => rw [hsplit] at h; simp at h
      | some pr =>
        rw [hsplit] at h
        simp at h
        obtain ⟨h1, h2⟩ := h
        have := @ih pr.1 pr.2 (by rw [hsplit])
        simp [← h1, ← h2, this]
        omega

/-- Python `subject.replace(old, new)`: replace all non-overlapping
occurrences, scanning left to right (`old` is nonempty at all call
sites). The structural fuel equals the remaining length, so the
zero-fuel branch is unreachable from the wrapper below. -/
def pyReplaceF (old new : List Char) : Nat → List Char → List Char
  | _, [] => []
  | 0, cs => cs
  | f + 1, c :: rest =>
    if old ≠ [] ∧ listIsPrefix old (c :: rest) = true then
      new ++ pyReplaceF old new f ((c :: rest).drop old.length)
    else c :: pyReplaceF old new f rest

/-- Python `subject.replace(old, new)`. -/
def pyReplaceList (old new cs : List Char) : List Char :=
  pyReplaceF old new cs.length cs

/-! ## Python `base64` module

`base64.b64encode` and the default (non-strict) `base64.b64decode` /
`binascii.a2b_base64` used by the source: invalid characters are skipped,
a pad sequence completing a quad ends the decode successfully, and a
leftover partial quad at the end raises (modelled as `none`). -/

/-- The base64 alphabet in table order. -/
def b64Chars : List Char :=
  "ABCDEFGHIJKLMNOPQRSTUVWXYZabcdefghijklmnopqrstuvwxyz0123456789+/".toList

/-- Character for a 6-bit value. -/
def b64ValChar (n : Nat) : Char :=
  b64Chars.getD n 'A'

/-- 6-bit value of an alphabet character (`none` for non-alphabet input). -/
def b64CharVal (c : Char) : Option Nat :=
  b64Chars.indexOf? c

/-- `base64.b64encode` over byte lists (output as characters). -/
def b64encodeList : List Nat → List Char
  | [] => []
  | [a] => [b64ValChar (a / 4), b64ValChar (a % 4 * 16), '=', '=']
  | [a, b] => [b64ValChar (a / 4), b64ValChar (a % 4 * 16 + b / 16),
               b64ValChar (b % 16 * 4), '=']
  | a :: b :: c :: rest =>
    b64ValChar (a / 4) :: b64ValChar (a % 4 * 16 + b / 16) ::
    b64ValChar (b % 16 * 4 + c / 64) :: b64ValChar (c % 64) :: b64encodeList rest

/-- `base64.b64encode(bytes).decode('utf-8')`. -/
def b64encodeStr (bs : List Nat) : String :=
  String.mk (b64encodeList bs)

/-- Core loop of CPython's non-strict `binascii.a2b_base64`:
state is (quad position, pending bits, consecutive pad count, output
accumulator in reverse). -/
def pyA2b : List Char → Nat → Nat → Nat → List Nat → Option (List Nat)
  | [], quadPos, _, _, acc => if quadPos = 0 then some acc.reverse else none
  | c :: rest, quadPos, leftchar, pads, acc =>
    if c = '=' then
      if 2 ≤ quadPos then
        if 4 ≤ quadPos + pads + 1 then some acc.reverse
        else pyA2b rest quadPos leftchar (pads + 1) acc
      else pyA2b rest quadPos leftchar pads acc
    else
      match b64CharVal c with
      | none => pyA2b rest quadPos leftchar pads acc
      | some v =>
        match quadPos with
        | 0 => pyA2b rest 1 v 0 acc
        | 1 => pyA2b rest 2 (v % 16) 0 ((leftchar * 4 + v / 16) :: acc)
        | 2 => pyA2b rest 3 (v % 4) 0 ((leftchar * 16 + v / 4) :: acc)
        | _ => pyA2b rest 0 0 0 ((leftchar * 64 + v) :: acc)

/-- `base64.b64decode(s)` with the default `validate=False`. -/
def pyB64Decode (s : String) : Option (List Nat) :=
  pyA2b s.toList 0 0 0 []

theorem b64CharVal_b64ValChar : ∀ n, n < 64 → b64CharVal (b64ValChar n) = some n := by
  decide

theorem b64ValChar_ne_pad : ∀ n, n < 64 → b64ValChar n ≠ '=' := by
  decide

/-- Decoding an encoding recovers the bytes (`acc`-generalised form). -/
theorem pyA2b_b64encodeList (bs : List Nat) (h : ∀ b ∈ bs, b < 256) :
    ∀ acc, pyA2b (b64encodeList bs) 0 0 0 acc = some (acc.reverse ++ bs) := by
  induction bs using b64encodeList.induct with
  | case1 => intro acc; simp [b64encodeList, pyA2b]
  | case2 a =>
    intro acc
    have ha : a < 256 := h a (by simp)
    have h1 : a / 4 < 64 := by omega
    have h2 : a % 4 * 16 < 64 := by omega
    simp only [b64encodeList, pyA2b,
      b64ValChar_ne_pad _ h1, b64ValChar_ne_pad _ h2,
      b64CharVal_b64ValChar _ h1, b64CharVal_b64ValChar _ h2,
      if_neg, ite_false, ite_true]
    have e1 : a / 4 * 4 + a % 4 * 16 / 16 = a := by omega
    have e2 : a % 4 * 16 % 16 = 0 := by omega
    simp [e1, e2]
    omega
  | case3 a b =>
    intro acc
    have ha : a < 256 := h a (by simp)
    have hb : b < 256 := h b (by simp)
    have h1 : a / 4 < 64 := by omega
    have h2 : a % 4 * 16 + b / 16 < 64 := by omega
    have h3 : b % 16 * 4 < 64 := by omega
    simp only [b64encodeList, pyA2b,
      b64ValChar_ne_pad _ h1, b64ValChar_ne_pad _ h2, b64ValChar_ne_pad _ h3,
      b64CharVal_b64ValChar _ h1, b64CharVal_b64ValChar _ h2,
      b64CharVal_b64ValChar _ h3, if_neg, ite_false, ite_true]
    have e1 : a / 4 * 4 + (a % 4 * 16 + b / 16) / 16 = a := by omega
    have e2 : (a % 4 * 16 + b / 16) % 16 = b / 16 := by omega
    have e3 : b / 16 * 16 + b % 16 * 4 / 4 = b := by omega
    simp [e1, e2, e3]
    omega
  | case4 a b c rest ih =>
    intro acc
    have ha : a < 256 := h a (by simp)
    have hb : b < 256 := h b (by simp)
    have hc : c < 256 := h c (by simp)
    have hrest : ∀ x ∈ rest, x < 256 := fun x hx => h x (by simp [hx])
    have h1 : a / 4 < 64 := by omega
    have h2 : a % 4 * 16 + b / 16 < 64 := by omega
    have h3 : b % 16 * 4 + c / 64 < 64 := by omega
    have h4 : c % 64 < 64 := by omega
    simp only [b64encodeList, pyA2b,
      b64ValChar_ne_pad _ h1, b64ValChar_ne_pad _ h2, b64ValChar_ne_pad _ h3,
      b64ValChar_ne_pad _ h4,
      b64CharVal_b64ValChar _ h1, b64CharVal_b64ValChar _ h2,
      b64CharVal_b64ValChar _ h3, b64CharVal_b64ValChar _ h4,
      if_neg, ite_false, ite_true]
    have e1 : a / 4 * 4 + (a % 4 * 16 + b / 16) / 16 = a := by omega
    have e2 : (a % 4 * 16 + b / 16) % 16 = b / 16 := by omega
    have e3 : b / 16 * 16 + (b % 16 * 4 + c / 64) / 4 = b := by omega
    have e4 : (b % 16 * 4 + c / 64) % 4 = c / 64 := by omega
    have e5 : c / 64 * 64 + c % 64 = c := by omega
    simp only [e1, e2, e3, e4, e5]
    rw [ih hrest (c :: b :: a :: acc)]
    simp

/-- Round trip: decoding a canonical encoding yields the original bytes. -/
theorem pyB64Decode_b64encodeStr (bs : List Nat) (h : ∀ b ∈ bs, b < 256) :
    pyB64Decode (b64encodeStr bs) = some bs := by
  have := pyA2b_b64encodeList bs h []
  simpa [pyB64Decode, b64encodeStr] using this

/-! ## `urllib.parse.unquote`

Percent-decoding: each maximal run of valid `%XX` escapes becomes a byte
sequence decoded as UTF-8 with `errors='replace'`; a `%` not followed by
two hex digits stays literal. -/

/-- Value of a hex digit (`none` otherwise). -/
def hexDigitVal (c : Char) : Option Nat :=
  if '0' ≤ c ∧ c ≤ '9' then some (c.toNat - '0'.toNat)
  else if 'a' ≤ c ∧ c ≤ 'f' then some (c.toNat - 'a'.toNat + 10)
  else if 'A' ≤ c ∧ c ≤ 'F' then some (c.toNat - 'A'.toNat + 10)
  else none

/-- Collect the maximal leading run of valid `%XX` escapes as bytes
(each byte consumes exactly three characters). -/
def pctBytes : List Char → List Nat
  | '%' :: h1 :: h2 :: rest =>
    match hexDigitVal h1, hexDigitVal h2 with
    | some a, some b => (a * 16 + b) :: pctBytes rest
    | _, _ => []
  | _ => []

/-- Decode one UTF-8 scalar (or one replacement character for an invalid
lead byte), returning the decoded character and how many bytes beyond the
lead byte were consumed. Invalid sequences yield U+FFFD consuming only the
lead byte (a simplification of CPython's maximal-subpart rule that matters
only for malformed escape data). -/
def utf8Step (b : Nat) (rest : List Nat) : Char × Nat :=
  let repl : Char := Char.ofNat 0xFFFD
  let cont : Nat → Bool := fun x => 0x80 ≤ x ∧ x ≤ 0xBF
  if b < 0x80 then (Char.ofNat b, 0)
  else if 0xC2 ≤ b ∧ b ≤ 0xDF then
    match rest with
    | b2 :: _ =>
      if cont b2 then (Char.ofNat ((b - 0xC0) * 64 + (b2 - 0x80)), 1)
      else (repl, 0)
    | [] => (repl, 0)
  else if 0xE0 ≤ b ∧ b ≤ 0xEF then
    match rest with
    | b2 :: b3 :: _ =>
      let okB2 : Bool :=
        if b = 0xE0 then 0xA0 ≤ b2 ∧ b2 ≤ 0xBF
        else if b = 0xED then 0x80 ≤ b2 ∧ b2 ≤ 0x9F
        else cont b2
      if okB2 ∧ cont b3 then
        (Char.ofNat ((b - 0xE0) * 4096 + (b2 - 0x80) * 64 + (b3 - 0x80)), 2)
      else (repl, 0)
    | _ => (repl, 0)
  else if 0xF0 ≤ b ∧ b ≤ 0xF4 then
    match rest with
    | b2 :: b3 :: b4 :: _ =>
      let okB2 : Bool :=
        if b = 0xF0 then 0x90 ≤ b2 ∧ b2 ≤ 0xBF
        else if b = 0xF4 then 0x80 ≤ b2 ∧ b2 ≤ 0x8F
        else cont b2
      if okB2 ∧ cont b3 ∧ cont b4 then
        (Char.ofNat ((b - 0xF0) * 262144 + (b2 - 0x80) * 4096 + (b3 - 0x80) * 64 + (b4 - 0x80)), 3)
      else (repl, 0)
    | _ => (repl, 0)
  else (repl, rest.length - rest.length)

/-- UTF-8 decoding with `errors='replace'` (fuel-structural; each step
consumes at least one byte). -/
def utf8DecodeF : Nat → List Nat → List Char
  | _, [] => []
  | 0, _ => []
  | f + 1, b :: rest =>
    let p := utf8Step b rest
    p.1 :: utf8DecodeF f (rest.drop p.2)

/-- UTF-8 decoding with `errors='replace'`. -/
def utf8DecodeReplace (bs : List Nat) : List Char :=
  utf8DecodeF bs.length bs

/-- `urllib.parse.unquote` over character lists (fuel-structural; each
step consumes at least one character). -/
def pyUnquoteF : Nat → List Char → List Char
  | _, [] => []
  | 0, cs => cs
  | f + 1, c :: rest =>
    if c = '%' then
      match pctBytes (c :: rest) with
      | [] => c :: pyUnquoteF f rest
      | bs => utf8DecodeReplace bs ++ pyUnquoteF f ((c :: rest).drop (3 * bs.length))
    else c :: pyUnquoteF f rest

/-- `urllib.parse.unquote` over character lists. -/
def pyUnquoteList (cs : List Char) : List Char :=
  pyUnquoteF cs.length cs

/-- `urllib.parse.unquote`. -/
def pyUnquote (s : String) : String :=
  String.mk (pyUnquoteList s.toList)

/-! ## `image_store.py` module helpers -/

/-- `is_base64_image(value)`: classify a string as inline base64 image
data (`app/services/image_store.py`). -/
def is_base64_image (value : String) : Bool :=
  if value.toList = [] then false
  else if pyStartsWith value "data:image/" then true
  else if pyStartsWith value "http://" || pyStartsWith value "https://"
       || pyStartsWith value "/" then false
  else if 100 < pyLen value then
    (pyA2b (((value.toList.take 100).filter
        (fun c => ¬(c = '\n' ∨ c = '\x0d'))) ++ ['=', '=']) 0 0 0 []).isSome
  else false

/-- `ImageStore._get_extension(content_type)`. -/
def get_extension (contentType : String) : String :=
  if contentType = "image/png" then ".png"
  else if contentType = "image/jpeg" then ".jpg"
  else if contentType = "image/jpg" then ".jpg"
  else if contentType = "image/gif" then ".gif"
  else if contentType = "image/webp" then ".webp"
  else ".png"

/-- `PayloadRewriter._guess_content_type(url)`. -/
def guess_content_type (url : String) : String :=
  let urlLower := pyLower url
  if pyContains urlLower ".jpg" || pyContains urlLower ".jpeg" then "image/jpeg"
  else if pyContains urlLower ".gif" then "image/gif"
  else if pyContains urlLower ".webp" then "image/webp"
  else if pyContains urlLower ".svg" then "image/svg+xml"
  else "image/png"

/-- Python `s.split(sep)[0]` for a single-character separator. -/
def takeUntilChar (stop : Char) (cs : List Char) : List Char :=
  cs.takeWhile (fun c => ¬(c = stop))

/-- Python `s.split(sep)` for a single-character separator. -/
def splitOnChar (sep : Char) : List Char → List (List Char)
  | [] => [[]]
  | c :: rest =>
    let r := splitOnChar sep rest
    if c = sep then [] :: r
    else
      match r with
      | [] => [[c]]
      | g :: gs => (c :: g) :: gs

/-- The suffix after the last occurrence of `sub`
(`url.split(sub)[-1]` when at least one occurrence exists). -/
def afterLastOcc (sub : List Char) : List Char → Option (List Char)
  | [] => none
  | c :: rest =>
    match afterLastOcc sub rest with
    | some r => some r
    | none =>
      if listIsPrefix sub (c :: rest) then some ((c :: rest).drop sub.length)
      else none

/-- Hex-digit test. -/
def isHexDigit (c : Char) : Bool :=
  (hexDigitVal c).isSome

/-- Tail of the digit grammar accepted by `int(s, 16)`: hex digits with
single underscores strictly between digits. -/
def hexUnderscoreOk : List Char → Bool
  | [] => true
  | '_' :: r =>
    match r with
    | c :: r2 => isHexDigit c && hexUnderscoreOk r2
    | [] => false
  | c :: r => isHexDigit c && hexUnderscoreOk r

/-- Whether Python `int(String.mk cs, 16)` succeeds. -/
def pyIntHexOk (cs : List Char) : Bool :=
  let t := pyStripList cs
  let t2 := match t with
    | '+' :: r => r
    | '-' :: r => r
    | r => r
  match t2 with
  | [] => false
  | c :: r => isHexDigit c && hexUnderscoreOk r

/-- The `len == 36 and count('-') == 4` UUID shape test used by both
`ImageStore.get_base64` and `extract_image_id_from_url`. -/
def uuidShape36 (cs : List Char) : Bool :=
  cs.length = 36 && cs.countP (fun c => c = '-') = 4

/-- `extract_image_id_from_url(url, public_base_url)`
(`app/services/image_store.py`; `public_base_url` is accepted but never
used by the source). -/
def extract_image_id_from_url (url0 : String) (publicBaseUrl : String) : Option String :=
  if url0.toList = [] then none
  else
    let url1 := pyStripList url0.toList
    if url1 = [] then none
    else
      let url2 := pyUnquoteList url1
      match afterLastOcc "/images/".toList url2 with
      | none => none
      | some partAfter =>
        let idStripped := pyStripList (takeUntilChar '#' (takeUntilChar '?' partAfter))
        let idChars :=
          if idStripped.getLast? = some '/' then idStripped.dropLast else idStripped
        if uuidShape36 idChars then
          let groups := splitOnChar '-' idChars
          if groups.length = 5 ∧
             (List.zip groups [8, 4, 4, 4, 12]).all (fun p => p.1.length = p.2) then
            if pyIntHexOk (idChars.filter (fun c => ¬(c = '-'))) then
              some (String.mk idChars)
            else none
          else none
        else none

/-! ## Markdown image scanning

`re.finditer(r'!\[([^\]]*)\]\(([^)]+)\)', content)` in the source: at a
given position the pattern matches exactly when the text reads `![`, then
the characters up to the first `]`, then `(`, then a nonempty run up to
the first `)`; `finditer` walks left to right over non-overlapping
matches. The scanner below decomposes a string into the interleaving of
raw text pieces and matches that the source's loops traverse. -/

/-- Reconstruction of `splitAtFirst`. -/
theorem splitAtFirst_eq {stop : Char} :
    ∀ {cs pre post : List Char}, splitAtFirst stop cs = some (pre, post) →
      cs = pre ++ stop :: post := by
  intro cs
  induction cs with
  | nil => intro pre post h; simp [splitAtFirst] at h
  | cons c rest ih =>
    intro pre post h
    by_cases hc : c = stop
    · simp [splitAtFirst, hc] at h
      obtain ⟨h1, h2⟩ := h
      subst h1; subst h2; simp [hc]
    · simp [splitAtFirst, hc] at h
      cases hsplit : splitAtFirst stop rest with
      | none => rw [hsplit] at h; simp at h
      | some pr =>
        rw [hsplit] at h
        simp at h
        obtain ⟨h1, h2⟩ := h
        have := @ih pr.1 pr.2 (by rw [hsplit])
        subst h1; subst h2
        simp [this]

/-- The full text of a markdown image match with alt text `alt` and raw
URL group `url`. -/
def mdFull (alt url : List Char) : List Char :=
  '!' :: '[' :: (alt ++ ']' :: '(' :: (url ++ [')']))

/-- Try to match the markdown-image pattern at the start of `cs`,
returning `(alt, url, rest)` on success. -/
def matchMdAt (cs : List Char) : Option (List Char × List Char × List Char) :=
  match cs with
  | c1 :: c2 :: tl =>
    if c1 = '!' ∧ c2 = '[' then
      match splitAtFirst ']' tl with
      | none => none
      | some (alt, cs1) =>
        match cs1 with
        | d :: cs2 =>
          if d = '(' then
            match splitAtFirst ')' cs2 with
            | none => none
            | some (inner, cs3) =>
              if inner = [] then none else some (alt, inner, cs3)
          else none
        | [] => none
    else none
  | _ => none

theorem matchMdAt_eq :
    ∀ {cs alt url rest : List Char}, matchMdAt cs = some (alt, url, rest) →
      cs = mdFull alt url ++ rest := by
  intro cs alt url rest h
  cases cs with
  | nil => simp [matchMdAt] at h
  | cons c1 t1 =>
    cases t1 with
    | nil => simp [matchMdAt] at h
    | cons c2 tl =>
      by_cases h12 : c1 = '!' ∧ c2 = '['
      · obtain ⟨hc1, hc2⟩ := h12
        subst hc1; subst hc2
        simp only [matchMdAt, if_pos (And.intro rfl rfl)] at h
        cases h1 : splitAtFirst ']' tl with
        | none => rw [h1] at h; simp at h
        | some pr1 =>
          rw [h1] at h
          obtain ⟨alt1, cs1⟩ := pr1
          cases cs1 with
          | nil => simp at h
          | cons d cs2 =>
            by_cases hd : d = '('
            · subst hd
              simp only [if_pos rfl] at h
              cases h2 : splitAtFirst ')' cs2 with
              | none => rw [h2] at h; simp at h
              | some pr2 =>
                rw [h2] at h
                obtain ⟨inner, cs3⟩ := pr2
                by_cases hinner : inner = []
                · simp [hinner] at h
                · simp [hinner] at h
                  obtain ⟨ha, hu, hr⟩ := h
                  subst ha; subst hu; subst hr
                  have e1 := splitAtFirst_eq h1
                  have e2 := splitAtFirst_eq h2
                  subst e1; subst e2
                  simp [mdFull]
            · simp [hd] at h
      · simp [matchMdAt, h12] at h

theorem matchMdAt_length {cs alt url rest : List Char}
    (h : matchMdAt cs = some (alt, url, rest)) :
    rest.length + 5 ≤ cs.length := by
  have := matchMdAt_eq h
  subst this
  simp [mdFull]
  omega

/-- One segment of a markdown-image decomposition: raw text between
matches, or one match. -/
inductive MdSeg where
  | text (cs : List Char)
  | img (alt url : List Char)
deriving Repr, DecidableEq

/-- Decompose a string into text pieces and markdown-image matches, as
`re.finditer` traverses them (`acc` holds pending text in reverse;
fuel-structural, each step consuming at least one character). Text
segments are exactly the nonempty gaps between matches. -/
def mdScanF : Nat → List Char → List Char → List MdSeg
  | _, [], acc => if acc = [] then [] else [MdSeg.text acc.reverse]
  | 0, cs, acc => if acc = [] then [MdSeg.text cs] else [MdSeg.text (acc.reverse ++ cs)]
  | f + 1, c :: rest, acc =>
    match matchMdAt (c :: rest) with
    | some (alt, url, rest2) =>
      (if acc = [] then [] else [MdSeg.text acc.reverse]) ++
        MdSeg.img alt url :: mdScanF f rest2 []
    | none => mdScanF f rest (c :: acc)

/-- The markdown-image decomposition of a string. -/
def mdScan (cs acc : List Char) : List MdSeg :=
  mdScanF cs.length cs acc

/-- Concatenate a decomposition back into the source text. -/
def mdJoin : List MdSeg → List Char
  | [] => []
  | MdSeg.text t :: rest => t ++ mdJoin rest
  | MdSeg.img a u :: rest => mdFull a u ++ mdJoin rest

/-- `mdScanF` is a decomposition whenever the fuel covers the input. -/
theorem mdJoin_mdScanF :
    ∀ (f : Nat) (cs acc : List Char), cs.length ≤ f →
      mdJoin (mdScanF f cs acc) = acc.reverse ++ cs := by
  intro f
  induction f with
  | zero =>
    intro cs acc h
    have : cs = [] := List.length_eq_zero.mp (Nat.le_zero.mp h)
    subst this
    by_cases ha : acc = [] <;> simp [mdScanF, ha, mdJoin]
  | succ f ih =>
    intro cs acc h
    cases cs with
    | nil => by_cases ha : acc = [] <;> simp [mdScanF, ha, mdJoin]
    | cons c rest =>
      cases hm : matchMdAt (c :: rest) with
      | none =>
        have := ih rest (c :: acc) (by simp at h; omega)
        simp [mdScanF, hm, this]
      | some triple =>
        obtain ⟨alt, url, rest2⟩ := triple
        have hlen := matchMdAt_length hm
        have he := matchMdAt_eq hm
        have := ih rest2 [] (by simp at h hlen ⊢; omega)
        by_cases ha : acc = [] <;>
          (rw [show mdScanF (f + 1) (c :: rest) acc =
              ((if acc = [] then [] else [MdSeg.text acc.reverse]) ++
                MdSeg.img alt url :: mdScanF f rest2 []) from by
            simp only [mdScanF, hm]]
           simp [ha, mdJoin, this, he, List.append_assoc])

/-- `mdScan` is a decomposition: joining its output restores the input. -/
theorem mdJoin_mdScan (cs acc : List Char) :
    mdJoin (mdScan cs acc) = acc.reverse ++ cs :=
  mdJoin_mdScanF cs.length cs acc (Nat.le_refl _)

/-- `mdScan` finds no match exactly when it yields no `img` segment;
the source tests `if not matches`. -/
def mdHasImg (segs : List MdSeg) : Bool :=
  segs.any (fun s => match s with | MdSeg.img _ _ => true | _ => false)

/-! ## HTML `<img>` scanning

`re.finditer(r'<img\s+[^>]*src=["\x27]([^"\x27>]+)["\x27][^>]*>', result,
re.IGNORECASE)` in the source. Since every character of a match before
its final `>` lies in classes excluding `>`, a match starting at `<img`
always ends at the first following `>`; greedy backtracking of `[^>]*`
selects the last `src=` inside that span whose quoted value parses. -/

/-- The single-quote character. -/
def sq : Char := Char.ofNat 39

/-- Check for `src=["\x27]([^"\x27>]+)["\x27]` at offset `p` of the
pre-`>` span. -/
def trySrcAt (pre : List Char) (p : Nat) : Option (List Char) :=
  match pre.drop p with
  | s :: r :: c :: e :: tail =>
    if pyLowerChar s = 's' ∧ pyLowerChar r = 'r' ∧ pyLowerChar c = 'c' ∧ e = '=' then
      match tail with
      | q :: t =>
        if q = '"' ∨ q = sq then
          let grp := t.takeWhile (fun ch => ¬(ch = '"' ∨ ch = sq ∨ ch = '>'))
          if grp = [] then none
          else
            match t.drop grp.length with
            | q2 :: _ => if q2 = '"' ∨ q2 = sq then some grp else none
            | [] => none
        else none
      | [] => none
    else none
  | _ => none

/-- Search for the rightmost workable `src=` (greedy `[^>]*`), trying
offsets `p, p-1, …, 1`. -/
def srcSearch (pre : List Char) : Nat → Option (List Char)
  | 0 => none
  | p + 1 =>
    match trySrcAt pre (p + 1) with
    | some u => some u
    | none => srcSearch pre p

/-- Core of the HTML match after the literal `<img`: on success return
`(pre, url)` where the match consumes `pre ++ ['>']` characters. -/
def htmlMatchCore (rest4 : List Char) : Option (List Char × List Char) :=
  match rest4 with
  | [] => none
  | w :: _ =>
    if isPySpace w then
      let pre := rest4.takeWhile (fun ch => ¬(ch = '>'))
      match rest4.drop pre.length with
      | g :: _ =>
        if g = '>' then
          match srcSearch pre pre.length with
          | some url => some (pre, url)
          | none => none
        else none
      | [] => none
    else none

/-- Try to match the HTML `<img …>` pattern at the start of `cs`,
returning `(tag text, src group, rest)` on success. -/
def htmlMatchAt (cs : List Char) : Option (List Char × List Char × List Char) :=
  match cs with
  | c0 :: c1 :: c2 :: c3 :: rest4 =>
    if c0 = '<' ∧ pyLowerChar c1 = 'i' ∧ pyLowerChar c2 = 'm' ∧ pyLowerChar c3 = 'g' then
      match htmlMatchCore rest4 with
      | some (pre, url) =>
        some (c0 :: c1 :: c2 :: c3 :: (pre ++ ['>']), url, rest4.drop (pre.length + 1))
      | none => none
    else none
  | _ => none

theorem htmlMatchAt_length {cs tagChars url rest : List Char}
    (h : htmlMatchAt cs = some (tagChars, url, rest)) :
    rest.length < cs.length := by
  unfold htmlMatchAt at h
  split at h
  · split at h
    · split at h
      · next pre url2 hcore =>
        simp only [Option.some.injEq, Prod.mk.injEq] at h
        obtain ⟨h1, h2, h3⟩ := h
        subst h3
        simp
        omega
      · cases h
    · cases h
  · cases h

/-- One segment of an HTML `<img>` decomposition. -/
inductive HtmlSeg where
  | text (cs : List Char)
  | tag (tagChars url : List Char)
deriving Repr, DecidableEq

/-- Decompose a string into text pieces and `<img>` matches, as
`re.finditer` traverses them (fuel-structural, each step consuming at
least one character). -/
def htmlScanF : Nat → List Char → List Char → List HtmlSeg
  | _, [], acc => if acc = [] then [] else [HtmlSeg.text acc.reverse]
  | 0, cs, acc => if acc = [] then [HtmlSeg.text cs] else [HtmlSeg.text (acc.reverse ++ cs)]
  | f + 1, c :: rest, acc =>
    match htmlMatchAt (c :: rest) with
    | some (tagChars, url, rest2) =>
      (if acc = [] then [] else [HtmlSeg.text acc.reverse]) ++
        HtmlSeg.tag tagChars url :: htmlScanF f rest2 []
    | none => htmlScanF f rest (c :: acc)

/-- The `<img>`-tag decomposition of a string. -/
def htmlScan (cs acc : List Char) : List HtmlSeg :=
  htmlScanF cs.length cs acc

/-! ## JSON values and the payload rewriter (`payload_rewriter.py`)

JSON payloads are a mutual inductive (objects keep key order, as Python
dicts do). The rewriter is parameterised by a `RewriteEnv` holding the
policy flag and the effectful collaborators as pure functions:
`localResolve` is `ImageStore.get_base64` as observed through
`_load_local_image` (which swallows exceptions, hence `Option`),
`extFetch` is `_fetch_external_image` (HTTP errors and non-image
content types both yield `None`), and `parseJson`/`dumpJson` stand for
the `json` module. The per-request URL cache only memoises these pure
functions, so it is semantically transparent and not threaded through.
The security `ValueError` of `_url_to_base64` is the `Except.error`
case; it propagates exactly where the source has no `try/except`. -/

mutual

inductive JValue where
  | null
  | bool (b : Bool)
  | num (n : Int)
  | str (s : String)
  | arr (xs : JList)
  | obj (fs : JObj)

inductive JList where
  | nil
  | cons (hd : JValue) (tl : JList)

inductive JObj where
  | nil
  | cons (key : String) (val : JValue) (tl : JObj)

end

deriving instance DecidableEq for JValue, JList, JObj

/-- Build a `JList` from a Lean list. -/
def JList.ofList : List JValue → JList
  | [] => JList.nil
  | v :: tl => JList.cons v (JList.ofList tl)

/-- Back to a Lean list. -/
def JList.toList : JList → List JValue
  | JList.nil => []
  | JList.cons v tl => v :: tl.toList

/-- Build a `JObj` from a Lean association list. -/
def JObj.ofList : List (String × JValue) → JObj
  | [] => JObj.nil
  | (k, v) :: tl => JObj.cons k v (JObj.ofList tl)

/-- Python `d.get(key)` (first occurrence; dict keys are unique). -/
def JObj.get? : JObj → String → Option JValue
  | JObj.nil, _ => none
  | JObj.cons k v tl, key => if k = key then some v else tl.get? key

/-- Field access on a JSON object value. -/
def jGet (v : JValue) (k : String) : Option JValue :=
  match v with
  | JValue.obj fs => fs.get? k
  | _ => none

/-- Python `d[key] = v`: update in place, appending when absent. -/
def JObj.set : JObj → String → JValue → JObj
  | JObj.nil, key, v => JObj.cons key v JObj.nil
  | JObj.cons k v0 tl, key, v =>
    if k = key then JObj.cons k v tl else JObj.cons k v0 (tl.set key v)

/-- Python truthiness of a JSON value. -/
def jTruthy : JValue → Bool
  | JValue.null => false
  | JValue.bool b => b
  | JValue.num n => ¬(n = 0)
  | JValue.str s => ¬(s.toList = [])
  | JValue.arr JList.nil => false
  | JValue.arr _ => true
  | JValue.obj JObj.nil => false
  | JValue.obj _ => true

/-- Environment of one rewriter instance (`PayloadRewriter.__init__`). -/
structure RewriteEnv where
  allow_external_fetch : Bool
  public_base_url : String
  localResolve : String → Option String
  extFetch : String → Option String
  parseJson : String → Option JValue
  dumpJson : JValue → String

/-- The message of the security `ValueError` raised by `_url_to_base64`
when external fetching is disabled. -/
def securityErrorMsg (url : String) : String :=
  "External image fetching is disabled. URL: " ++ pyTake url 50 ++ "... " ++
    "Enable \x27allow_external_image_fetch\x27 in settings if needed."

/-- `PayloadRewriter._url_to_base64(url)`: `.error` is the uncaught
security `ValueError`; `.ok none` is a Python `None` return. -/
def url_to_base64 (env : RewriteEnv) (url0 : String) : Except String (Option String) :=
  let url := pyStrip url0
  if url.toList = [] then Except.ok none
  else
    let viaLocal : Option String :=
      match extract_image_id_from_url url env.public_base_url with
      | some imageId => env.localResolve imageId
      | none => none
    match viaLocal with
    | some b => Except.ok (some b)
    | none =>
      if env.allow_external_fetch = false then Except.error (securityErrorMsg url)
      else Except.ok (env.extFetch url)

/-- The `data:<mime>;base64,<payload>` wrapper used on resolved URLs. -/
def dataUri (contentType b64 : String) : String :=
  "data:" ++ contentType ++ ";base64," ++ b64

/-- `PayloadRewriter._convert_image_field(value)` for the `image`,
`init_image` and `mask` keys; the security error is not caught here. -/
def convert_image_field (env : RewriteEnv) (v : JValue) : Except String JValue :=
  match v with
  | JValue.str s =>
    if is_base64_image s then Except.ok (JValue.str s)
    else
      match url_to_base64 env s with
      | Except.error e => Except.error e
      | Except.ok (some b) => Except.ok (JValue.str b)
      | Except.ok none => Except.ok (JValue.str s)
  | other => Except.ok other

/-- A `{"type": "text", "text": t}` part. -/
def mkTextPart (t : String) : JValue :=
  JValue.obj (JObj.cons "type" (JValue.str "text")
    (JObj.cons "text" (JValue.str t) JObj.nil))

/-- A `{"type": "image_url", "image_url": {"url": u}}` part. -/
def mkImageUrlPart (u : String) : JValue :=
  JValue.obj (JObj.cons "type" (JValue.str "image_url")
    (JObj.cons "image_url" (JValue.obj (JObj.cons "url" (JValue.str u) JObj.nil)) JObj.nil))

/-- The part (if any) contributed by one markdown segment in
`_convert_string_to_structured_content`: whitespace-only gap text is
dropped, a resolvable image becomes an `image_url` part, a failed or
refused resolution keeps the whole match as text, and an image whose URL
strips to empty contributes nothing. -/
def structuredPart (env : RewriteEnv) (seg : MdSeg) : Option JValue :=
  match seg with
  | MdSeg.text t =>
    if pyStripList t = [] then none else some (mkTextPart (String.mk t))
  | MdSeg.img alt urlRaw =>
    let url := pyStrip (String.mk urlRaw)
    if is_base64_image url then some (mkImageUrlPart url)
    else if ¬(url.toList = []) then
      match url_to_base64 env url with
      | Except.ok (some b) => some (mkImageUrlPart (dataUri (guess_content_type url) b))
      | _ => some (mkTextPart (String.mk (mdFull alt urlRaw)))
    else none

/-- The final shape decision of
`_convert_string_to_structured_content`: a single part whose `type` is
`"text"` collapses to its `text` string (`len(parts) == 1 and
parts[0].get("type") == "text"`); everything else is the structured
array. -/
def collapseParts (ps : List JValue) : JValue :=
  match ps with
  | [p] =>
    if jGet p "type" = some (JValue.str "text") then
      match jGet p "text" with
      | some t => t
      | none => JValue.arr (JList.ofList ps)
    else JValue.arr (JList.ofList ps)
  | _ => JValue.arr (JList.ofList ps)

/-- `PayloadRewriter._convert_string_to_structured_content(content)`:
total, because every exception of `_url_to_base64` is caught inside. -/
def convert_string_to_structured_content (env : RewriteEnv) (content : String) : JValue :=
  if content.toList = [] ∨ pyStripList content.toList = [] then JValue.str content
  else
    let segs := mdScan content.toList []
    if mdHasImg segs = false then JValue.str content
    else collapseParts (segs.filterMap (structuredPart env))

/-- The markdown pass of `_rewrite_string_content`: replace each resolvable
match in place, leaving everything else untouched (the source edits the
matches in reverse order, which equals this segment-wise rebuild). -/
def mdRewriteSeg (env : RewriteEnv) (seg : MdSeg) : List Char :=
  match seg with
  | MdSeg.text t => t
  | MdSeg.img alt urlRaw =>
    let url := pyStrip (String.mk urlRaw)
    if url.toList = [] ∨ is_base64_image url then mdFull alt urlRaw
    else
      match url_to_base64 env url with
      | Except.ok (some b) => mdFull alt (dataUri (guess_content_type url) b).toList
      | _ => mdFull alt urlRaw

/-- The HTML pass of `_rewrite_string_content`: `str.replace` the stripped
URL inside the matched tag by the data URI. -/
def htmlRewriteSeg (env : RewriteEnv) (seg : HtmlSeg) : List Char :=
  match seg with
  | HtmlSeg.text t => t
  | HtmlSeg.tag tagChars urlRaw =>
    let url := pyStrip (String.mk urlRaw)
    if url.toList = [] ∨ is_base64_image url then tagChars
    else
      match url_to_base64 env url with
      | Except.ok (some b) =>
        pyReplaceList url.toList (dataUri (guess_content_type url) b).toList tagChars
      | _ => tagChars

/-- `PayloadRewriter._rewrite_string_content(content)`: markdown pass, then
HTML `<img>` pass on its output; total (all exceptions caught inside). -/
def rewrite_string_content (env : RewriteEnv) (content : String) : String :=
  if content.toList = [] ∨ pyStripList content.toList = [] then content
  else
    let afterMd := (mdScan content.toList []).flatMap (mdRewriteSeg env)
    String.mk ((htmlScan afterMd []).flatMap (htmlRewriteSeg env))

/-- The `url` the content-array branches extract from an
`image_url`/`input_image` item: a string field stays a string, a dict
field is looked up at `"url"` (any JSON value), anything else yields
`""`. -/
def contentItemUrlVal (fs : JObj) (field : String) : JValue :=
  match fs.get? field with
  | some (JValue.str s) => JValue.str s
  | some (JValue.obj o) =>
    match o.get? "url" with
    | some u => u
    | none => JValue.str ""
  | _ => JValue.str ""

/-- The `image_url` / `input_image` branches of
`_rewrite_content_array`. The resolution `try/except` swallows the
security error (the item is appended unchanged), but a truthy non-string
`url` reaches `is_base64_image` outside the `try` and raises an
uncaught `AttributeError`. -/
def imageUrlishItem (env : RewriteEnv) (fs : JObj) (field : String) : Except String JValue :=
  let urlV := contentItemUrlVal fs field
  if jTruthy urlV = false then Except.ok (JValue.obj fs)
  else
    match urlV with
    | JValue.str s =>
      if is_base64_image s then Except.ok (JValue.obj fs)
      else
        match url_to_base64 env s with
        | Except.ok (some b) =>
          let d := dataUri (guess_content_type s) b
          let newFs :=
            match fs.get? field with
            | some (JValue.obj o) => fs.set field (JValue.obj (o.set "url" (JValue.str d)))
            | _ => fs.set field (JValue.obj (JObj.cons "url" (JValue.str d) JObj.nil))
          Except.ok (JValue.obj newFs)
        | _ => Except.ok (JValue.obj fs)
    | _ => Except.error "AttributeError: url value has no startswith"

/-- The `image` branch of `_rewrite_content_array` (total: the
`isinstance` guard precedes the classifier and resolution errors are
caught). -/
def imageItem (env : RewriteEnv) (fs : JObj) : JValue :=
  match (fs.get? "image").getD (JValue.str "") with
  | JValue.str s =>
    if ¬(s.toList = []) ∧ is_base64_image s = false then
      match url_to_base64 env s with
      | Except.ok (some b) => JValue.obj (fs.set "image" (JValue.str b))
      | _ => JValue.obj fs
    else JValue.obj fs
  | _ => JValue.obj fs

/-- The `text` branch of `_rewrite_content_array` (total). -/
def textItem (env : RewriteEnv) (fs : JObj) : JValue :=
  match (fs.get? "text").getD (JValue.str "") with
  | JValue.str s =>
    if ¬(s.toList = []) then
      let r := rewrite_string_content env s
      if ¬(r = s) then JValue.obj (fs.set "text" (JValue.str r)) else JValue.obj fs
    else JValue.obj fs
  | _ => JValue.obj fs

mutual

/-- `PayloadRewriter._rewrite_value(value)`, parameterised by the
handler `argRec` applied to JSON parsed out of `arguments` strings (the
fuel wrapper below ties that knot; Python bounds the recursion by the
strict shrinking of parsed strings). -/
def rewrite_valueC (env : RewriteEnv)
    (argRec : Option (JValue → Except String JValue)) : JValue → Except String JValue
  | JValue.obj fs => (rewrite_dictC env argRec fs).map JValue.obj
  | JValue.arr xs => (rewrite_listC env argRec xs).map JValue.arr
  | v => Except.ok v

/-- `PayloadRewriter._rewrite_dict(d)`. -/
def rewrite_dictC (env : RewriteEnv)
    (argRec : Option (JValue → Except String JValue)) : JObj → Except String JObj
  | JObj.nil => Except.ok JObj.nil
  | JObj.cons k v tl => do
    let nv ←
      if k = "image" ∨ k = "init_image" ∨ k = "mask" then convert_image_field env v
      else if k = "content" then
        match v with
        | JValue.null => Except.ok JValue.null
        | JValue.arr xs => (rewrite_content_arrayC env argRec xs).map JValue.arr
        | JValue.str s => Except.ok (convert_string_to_structured_content env s)
        | other => Except.ok other
      else if k = "arguments" then
        match v with
        | JValue.str s =>
          match env.parseJson s with
          | none => Except.ok (JValue.str s)
          | some data =>
            match argRec with
            | none => Except.ok (JValue.str s)
            | some g => (g data).map (fun r => JValue.str (env.dumpJson r))
        | other => rewrite_valueC env argRec other
      else if k = "tool_calls" then
        match v with
        | JValue.arr xs => (rewrite_listC env argRec xs).map JValue.arr
        | other => rewrite_valueC env argRec other
      else rewrite_valueC env argRec v
    let ntl ← rewrite_dictC env argRec tl
    Except.ok (JObj.cons k nv ntl)

/-- `PayloadRewriter._rewrite_list(lst)`. -/
def rewrite_listC (env : RewriteEnv)
    (argRec : Option (JValue → Except String JValue)) : JList → Except String JList
  | JList.nil => Except.ok JList.nil
  | JList.cons v tl => do
    let nv ← rewrite_valueC env argRec v
    let ntl ← rewrite_listC env argRec tl
    Except.ok (JList.cons nv ntl)

/-- `PayloadRewriter._rewrite_content_array(content)` (`None` items are
skipped; plain strings get the in-place string rewrite; dict items
dispatch on their `type` tag; anything else passes through). -/
def rewrite_content_arrayC (env : RewriteEnv)
    (argRec : Option (JValue → Except String JValue)) : JList → Except String JList
  | JList.nil => Except.ok JList.nil
  | JList.cons item tl =>
    match item with
    | JValue.null => rewrite_content_arrayC env argRec tl
    | JValue.str s =>
      (rewrite_content_arrayC env argRec tl).map
        (JList.cons (JValue.str (rewrite_string_content env s)))
    | JValue.obj fs =>
      (match fs.get? "type" with
       | some (JValue.str t) =>
         if t = "image_url" then do
           let ni ← imageUrlishItem env fs "image_url"
           let ntl ← rewrite_content_arrayC env argRec tl
           Except.ok (JList.cons ni ntl)
         else if t = "input_image" then do
           let ni ← imageUrlishItem env fs "input_image"
           let ntl ← rewrite_content_arrayC env argRec tl
           Except.ok (JList.cons ni ntl)
         else if t = "image" then
           (rewrite_content_arrayC env argRec tl).map (JList.cons (imageItem env fs))
         else if t = "text" then
           (rewrite_content_arrayC env argRec tl).map (JList.cons (textItem env fs))
         else do
           let ni ← rewrite_valueC env argRec item
           let ntl ← rewrite_content_arrayC env argRec tl
           Except.ok (JList.cons ni ntl)
       | _ => do
         let ni ← rewrite_valueC env argRec item
         let ntl ← rewrite_content_arrayC env argRec tl
         Except.ok (JList.cons ni ntl))
    | other =>
      (rewrite_content_arrayC env argRec tl).map (JList.cons other)

end

/-- The `arguments`-string recursion handler at a given remaining depth:
each level of parsed-JSON recursion consumes one unit; at zero the
string is passed through unchanged (Python needs no bound since every
parsed string is strictly shorter than its container). -/
def argHandler (env : RewriteEnv) : Nat → Option (JValue → Except String JValue)
  | 0 => none
  | fuel + 1 => some (fun v => rewrite_valueC env (argHandler env fuel) v)

/-- `PayloadRewriter._rewrite_value(value)` at `arguments`-recursion
depth `fuel`. -/
def rewrite_value (env : RewriteEnv) (fuel : Nat) (v : JValue) : Except String JValue :=
  rewrite_valueC env (argHandler env fuel) v

/-- `PayloadRewriter._rewrite_dict(d)` at depth `fuel`. -/
def rewrite_dict (env : RewriteEnv) (fuel : Nat) (fs : JObj) : Except String JObj :=
  rewrite_dictC env (argHandler env fuel) fs

/-- `PayloadRewriter._rewrite_list(lst)` at depth `fuel`. -/
def rewrite_list (env : RewriteEnv) (fuel : Nat) (xs : JList) : Except String JList :=
  rewrite_listC env (argHandler env fuel) xs

/-- `PayloadRewriter._rewrite_content_array(content)` at depth `fuel`. -/
def rewrite_content_array (env : RewriteEnv) (fuel : Nat) (xs : JList) :
    Except String JList :=
  rewrite_content_arrayC env (argHandler env fuel) xs

/-- `PayloadRewriter.rewrite(payload)` (the public entry point; the
per-request cache and log set it clears do not affect the result). -/
def rewrite (env : RewriteEnv) (fuel : Nat) (payload : JValue) : Except String JValue :=
  rewrite_value env fuel payload

/-! ## Image store state (`image_store.py`, `cleanup.py`)

The `images` table, the on-disk image directory, and the R2 bucket are
the three fields of `StoreState`. The `save_from_base64` background
tasks (`_auto_upload_to_r2`, `_check_cache_size_limit`) are launched
fire-and-forget in the source; they are modelled as the separate
transitions below rather than run inside `save`. -/

/-- One row of the `images` table (`app/models.py`). -/
structure ImageRec where
  image_id : String
  local_path : String
  r2_key : String
  size_bytes : Nat
  content_type : String
  has_local_copy : Bool
  has_r2_copy : Bool
  upload_status : String
  upload_error : String
  created_at : Int
  last_accessed_at : Int
deriving Repr, DecidableEq

/-- Database rows, local image directory, R2 bucket. -/
structure StoreState where
  records : List ImageRec
  files : List (String × List Nat)
  remote : List (String × List Nat)
deriving Repr, DecidableEq

/-- Configuration snapshot (`app/models.py` `Settings`), reduced to the
fields the store transitions read; `r2_configured` is
`create_r2_client(settings) is not None`. -/
structure SettingsModel where
  local_cache_ttl_hours : Nat
  metadata_retention_days : Nat
  max_local_cache_mb : Nat
  delete_r2_on_metadata_expire : Bool
  r2_configured : Bool
deriving Repr, DecidableEq

/-- First association for a file name. -/
def lookupFile (files : List (String × List Nat)) (name : String) : Option (List Nat) :=
  match files with
  | [] => none
  | (n, bs) :: rest => if n = name then some bs else lookupFile rest name

/-- `Path.write_bytes`: overwrite or create. -/
def setFile (files : List (String × List Nat)) (name : String) (bytes : List Nat) :
    List (String × List Nat) :=
  match files with
  | [] => [(name, bytes)]
  | (n, bs) :: rest =>
    if n = name then (n, bytes) :: rest else (n, bs) :: setFile rest name bytes

/-- `Path.unlink`. -/
def removeFile (files : List (String × List Nat)) (name : String) :
    List (String × List Nat) :=
  files.filter (fun p => ¬(p.1 = name))

/-- `SELECT … WHERE image_id = id` with `scalar_one_or_none` (ids are
unique by constraint). -/
def findRec (recs : List ImageRec) (id : String) : Option ImageRec :=
  recs.find? (fun r => r.image_id = id)

/-- Update the row(s) with the given id. -/
def updateRec (recs : List ImageRec) (id : String) (f : ImageRec → ImageRec) :
    List ImageRec :=
  recs.map (fun r => if r.image_id = id then f r else r)

/-- File-system and archive touches performed by a read path. -/
inductive IOEvent where
  | fileProbe (name : String)
  | fileRead (name : String)
  | fileWrite (name : String)
  | remoteDownload (key : String)
deriving Repr, DecidableEq

/-- `ImageStore.save_from_base64(base64_data, content_type)`: decode
(stripping an optional `data:` prefix — a `data:` header without a comma
raises, as `split(",", 1)[1]` does), write the file, append the row.
`newId` stands for the `uuid.uuid4()` draw and `now` for
`datetime.utcnow()`. -/
def save_from_base64 (st : StoreState) (newId : String) (now : Int)
    (base64_data : String) (content_type : String) :
    Except String (ImageRec × StoreState) :=
  let fileExt := get_extension content_type
  let filename := newId ++ fileExt
  let decoded : Option (List Nat) :=
    if pyStartsWith base64_data "data:" then
      match splitAtFirst ',' base64_data.toList with
      | some (_, after) => pyA2b after 0 0 0 []
      | none => none
    else pyB64Decode base64_data
  match decoded with
  | none => Except.error "Invalid base64 data"
  | some bytes =>
    let rec1 : ImageRec := {
      image_id := newId
      local_path := filename
      r2_key := "openwebui/" ++ newId ++ fileExt
      size_bytes := bytes.length
      content_type := content_type
      has_local_copy := true
      has_r2_copy := false
      upload_status := "pending"
      upload_error := ""
      created_at := now
      last_accessed_at := now }
    Except.ok (rec1,
      { st with
        files := setFile st.files filename bytes
        records := st.records ++ [rec1] })

/-- `ImageStore.get_local_path(image_id)`: resolve the local file,
clearing `has_local_copy` when the flagged file is missing. -/
def get_local_path (st : StoreState) (id : String) :
    Option String × StoreState × List IOEvent :=
  match findRec st.records id with
  | none => (none, st, [])
  | some r =>
    if r.has_local_copy ∧ ¬(r.local_path = "") then
      if (lookupFile st.files r.local_path).isSome then
        (some r.local_path, st, [IOEvent.fileProbe r.local_path])
      else
        (none,
         { st with records :=
            updateRec st.records id (fun x => { x with has_local_copy := false }) },
         [IOEvent.fileProbe r.local_path])
    else (none, st, [])

/-- The R2-fallback tail of `ImageStore.get_base64`: download, cache the
bytes back to disk re-establishing `has_local_copy`, and return them. -/
def r2Fallback (st : StoreState) (settings : SettingsModel) (iid : String)
    (evs : List IOEvent) : Option String × StoreState × List IOEvent :=
  match findRec st.records iid with
  | none => (none, st, evs)
  | some r =>
    if r.has_r2_copy ∧ settings.r2_configured then
      let key := "openwebui/" ++ iid ++ ".png"
      match lookupFile st.remote key with
      | some bytes =>
        let ct := if r.content_type = "" then "image/png" else r.content_type
        let filename := iid ++ get_extension ct
        (some (b64encodeStr bytes),
         { st with
           files := setFile st.files filename bytes
           records := updateRec st.records iid
             (fun x => { x with has_local_copy := true, local_path := filename }) },
         evs ++ [IOEvent.remoteDownload key, IOEvent.fileWrite filename])
      | none => (none, st, evs ++ [IOEvent.remoteDownload key])
    else (none, st, evs)

/-- `ImageStore.get_base64(image_id)`: validate the id shape before any
file or archive I/O, then local read with R2 fallback. -/
def get_base64 (st : StoreState) (settings : SettingsModel) (image_id0 : String) :
    Option String × StoreState × List IOEvent :=
  if image_id0.toList = [] then (none, st, [])
  else
    let iid := pyStrip image_id0
    if uuidShape36 iid.toList = false then (none, st, [])
    else
      match get_local_path st iid with
      | (some path, st1, evs) =>
        match lookupFile st1.files path with
        | some bytes => (some (b64encodeStr bytes), st1, evs ++ [IOEvent.fileRead path])
        | none => r2Fallback st1 settings iid (evs ++ [IOEvent.fileRead path])
      | (none, st1, evs) => r2Fallback st1 settings iid evs

/-- Total bytes under the image directory (`iterdir` plus `stat`). -/
def dirSizeBytes (files : List (String × List Nat)) : Nat :=
  (files.map (fun p => p.2.length)).sum

/-- Insert into a `created_at`-ascending list. -/
def insertByCreated (r : ImageRec) : List ImageRec → List ImageRec
  | [] => [r]
  | x :: xs =>
    if x.created_at ≤ r.created_at then x :: insertByCreated r xs
    else r :: x :: xs

/-- `ORDER BY created_at ASC`. -/
def sortByCreated : List ImageRec → List ImageRec
  | [] => []
  | r :: rest => insertByCreated r (sortByCreated rest)

/-- The deletion loop of `_check_cache_size_limit`, over the
`created_at`-sorted records with a local copy. Returns the remaining
files, the ids whose `has_local_copy` was cleared (in processing order)
and the file names actually deleted (in deletion order). -/
def quotaLoop (files : List (String × List Nat)) (sorted : List ImageRec)
    (current target : ℚ) : List (String × List Nat) × List String × List String :=
  match sorted with
  | [] => (files, [], [])
  | r :: rest =>
    if current ≤ target then (files, [], [])
    else if ¬(r.local_path = "") then
      match lookupFile files r.local_path with
      | some bytes =>
        let sizeMB : ℚ := (bytes.length : ℚ) / (1024 * 1024)
        let out := quotaLoop (removeFile files r.local_path) rest (current - sizeMB) target
        (out.1, r.image_id :: out.2.1, r.local_path :: out.2.2)
      | none =>
        let out := quotaLoop files rest current target
        (out.1, r.image_id :: out.2.1, out.2.2)
    else quotaLoop files rest current target

/-- `ImageStore._check_cache_size_limit()` (the post-save background
quota pass): no-op when no limit is set or usage is within it; otherwise
delete oldest-first until usage reaches 90% of the limit. The flag
updates are committed only when at least one file was deleted, as in the
source (`if deleted_count > 0: commit`). Returns the new state and the
deleted file names in order. -/
def check_cache_size_limit (st : StoreState) (settings : SettingsModel) :
    StoreState × List String :=
  let maxMB := settings.max_local_cache_mb
  if maxMB = 0 then (st, [])
  else
    let currentMB : ℚ := (dirSizeBytes st.files : ℚ) / (1024 * 1024)
    if currentMB ≤ (maxMB : ℚ) then (st, [])
    else
      let target : ℚ := (maxMB : ℚ) * (9 / 10)
      let sorted := sortByCreated (st.records.filter (fun r => r.has_local_copy))
      let out := quotaLoop st.files sorted currentMB target
      if out.2.2 = [] then (st, [])
      else
        ({ st with
           files := out.1
           records := st.records.map (fun r =>
             if r.image_id ∈ out.2.1 then { r with has_local_copy := false } else r) },
         out.2.2)

/-- Python `x or default` on the numeric settings fields. -/
def orDefaultNat (n d : Nat) : Nat :=
  if n = 0 then d else n

/-- `cleanup_expired_local(db)` (`cleanup.py`): clear `has_local_copy`
and best-effort delete the file for every record with a local copy whose
`last_accessed_at` is older than the TTL. -/
def cleanup_expired_local (st : StoreState) (now : Int) (settings : SettingsModel) :
    StoreState :=
  let ttl := orDefaultNat settings.local_cache_ttl_hours 72
  let cutoff : Int := now - ttl * 3600
  let isExpired := fun (r : ImageRec) => r.has_local_copy ∧ r.last_accessed_at < cutoff
  let files2 := (st.records.filter isExpired).foldl
    (fun fs r => if ¬(r.local_path = "") then removeFile fs r.local_path else fs)
    st.files
  { st with
    files := files2
    records := st.records.map (fun r =>
      if isExpired r then { r with has_local_copy := false } else r) }

/-- `cleanup_expired_metadata(db)` (`cleanup.py`): delete every record
without a local copy whose `created_at` is past the retention period,
deleting the R2 object first when configured to. -/
def cleanup_expired_metadata (st : StoreState) (now : Int) (settings : SettingsModel) :
    StoreState :=
  let retention := orDefaultNat settings.metadata_retention_days 365
  let cutoff : Int := now - retention * 86400
  let isOld := fun (r : ImageRec) => ¬r.has_local_copy ∧ r.created_at < cutoff
  let remote2 :=
    if settings.delete_r2_on_metadata_expire ∧ settings.r2_configured then
      st.remote.filter (fun p =>
        ¬(st.records.any (fun r =>
          isOld r ∧ r.has_r2_copy ∧ p.1 = "openwebui/" ++ r.image_id ++ ".png")))
    else st.remote
  { st with
    records := st.records.filter (fun r => ¬(isOld r))
    remote := remote2 }

/-- One cleanup cycle as the admin `/cleanup` endpoint runs it:
the TTL pass, then the metadata-retention pass. -/
def cleanupCycle (st : StoreState) (now : Int) (settings : SettingsModel) : StoreState :=
  cleanup_expired_metadata (cleanup_expired_local st now settings) now settings

/-! ## Streaming adapter and non-streaming chat retry
(`routers/gateway_openai.py`)

Frames are modelled structurally: `chunk` is one `make_chunk` SSE event
(the JSON serialisation is the excluded `json` module), `doneMarker` is
the literal `data: [DONE]\n\n`, and `upstreamLine` is one verbatim
forwarded line of `generate_passthrough_stream`. The concurrency of the
interactive generator is modelled by `heartbeats`, the number of
3-second waits that saw the background fetch still pending — the loop
emits a timer frame exactly for those, so frames after the fetch task
completes are exactly the terminal block. -/

/-- One server-sent event of a streaming response. -/
inductive Frame where
  | chunk (content : String) (finishReason : Option String) (includeRole : Bool)
  | doneMarker
  | upstreamLine (line : String)
deriving Repr, DecidableEq

/-- Outcome of the 3-attempt upstream fetch of the interactive stream:
on failure, the last attempt's status code / detail / raw text. -/
inductive FetchResult where
  | success (resp : JValue)
  | failure (statusCode : Option Nat) (detail : String) (raw : String)

/-- The `![📷 原图{i}]({url})` list of the welcome message (first three
URLs, numbered from 1). -/
def imagesMd (urls : List String) : String :=
  String.intercalate "\n" ((List.enumFrom 1 (urls.take 3)).map
    (fun p => "![📷 原图" ++ toString p.1 ++ "](" ++ p.2 ++ ")"))

/-- The welcome message of `generate_interactive_stream`. -/
def welcomeMsg (urls : List String) : String :=
  if urls = [] then
    "## 🎨 PicGate 图像处理中心\n\n---\n\n**📥 已接收您的创作请求**\n\n⏳ 正在连接 AI 绘图引擎，请稍候...\n\n"
  else
    "## 🎨 PicGate 图像处理中心\n\n---\n\n**📥 已接收您的创作请求**\n\n" ++
      imagesMd urls ++ "\n\n---\n\n⏳ 正在连接 AI 绘图引擎，请稍候...\n\n"

/-- The `k`-th (0-based) timer frame: elapsed `3 * (k + 1)` seconds,
`(elapsed // 3) % 4 + 1` dots. -/
def heartbeatFrame (k : Nat) : Frame :=
  Frame.chunk ("🔄 **处理中** " ++
      String.mk (List.replicate ((3 * (k + 1) / 3) % 4 + 1) '•') ++
      " 已用时 " ++ toString (3 * (k + 1)) ++ "s\n")
    none false

/-- The synthetic error message of the interactive stream's exhausted
retry path. -/
def interactiveErrorMsg (statusCode : Option Nat) (detail raw : String) : String :=
  "\n\n⚠️ **上游API请求失败 (已重试3次)**\n\n**HTTP状态码:** " ++
    (match statusCode with | some c => toString c | none => "N/A") ++
    "\n\n**错误信息:** " ++ detail ++ "\n\n**完整响应:**\n```\n" ++
    (if raw = "" then "N/A" else pyTake raw 2000) ++
    "\n```\n\n请检查上游API服务是否正常运行。"

/-- The fixed frame emitted right after a successful fetch. -/
def processMsg : String :=
  "\n\n---\n\n✨ **图像生成成功！** 正在优化输出格式...\n\n"

/-- `generate_interactive_stream`: welcome frame, `heartbeats` timer
frames, then the terminal block. On fetch success, `resultMsg` summarises
the response-formatting ladder (source lines 874–909): every non-raising
path through it yields exactly one content chunk (`some m`); `none`
models the corner where a malformed upstream `choices` value raises out
of the fallback `except` handler, killing the generator before the
finish frames. -/
def generate_interactive_stream (urls : List String) (heartbeats : Nat)
    (res : FetchResult) (resultMsg : Option String) : List Frame :=
  Frame.chunk (welcomeMsg urls) none true ::
    ((List.range heartbeats).map heartbeatFrame ++
      (match res with
       | FetchResult.failure code detail raw =>
         [Frame.chunk (interactiveErrorMsg code detail raw) none false,
          Frame.chunk "" (some "stop") false, Frame.doneMarker]
       | FetchResult.success _ =>
         Frame.chunk processMsg none false ::
           (match resultMsg with
            | some m =>
              [Frame.chunk m none false,
               Frame.chunk "" (some "stop") false, Frame.doneMarker]
            | none => [])))

/-- One attempt of `generate_passthrough_stream`: the upstream lines the
iterator yielded, and whether it finished (else it raised and the loop
retries). -/
structure StreamAttempt where
  lines : List String
  completed : Bool

/-- The frames forwarded from one upstream attempt (`if line: yield`). -/
def attemptFrames (a : StreamAttempt) : List Frame :=
  (a.lines.filter (fun l => ¬(l = ""))).map (fun l => Frame.upstreamLine (l ++ "\n\n"))

/-- The synthetic error content of the passthrough stream's exhausted
retry path. -/
def passthroughErrorMsg (statusCode : Option Nat) (detail raw : String) : String :=
  "⚠️ **上游API请求失败 (已重试3次)**\n\n**HTTP状态码:** " ++
    (match statusCode with | some c => toString c | none => "N/A") ++
    "\n\n**错误信息:** " ++ detail ++ "\n\n**完整响应:**\n```\n" ++
    (if raw = "" then "N/A" else pyTake raw 2000) ++
    "\n```\n\n请检查上游API服务是否正常运行。"

/-- `generate_passthrough_stream`: forward each attempt's lines; a
completed attempt returns immediately (appending nothing), and only the
exhaustion of all three attempts synthesizes the error, finish and
`[DONE]` frames (with the last attempt's error info). -/
def generate_passthrough_stream (a1 a2 a3 : StreamAttempt)
    (statusCode : Option Nat) (detail raw : String) : List Frame :=
  if a1.completed then attemptFrames a1
  else attemptFrames a1 ++
    (if a2.completed then attemptFrames a2
     else attemptFrames a2 ++
      (if a3.completed then attemptFrames a3
       else attemptFrames a3 ++
        [Frame.chunk (passthroughErrorMsg statusCode detail raw) none true,
         Frame.chunk "" (some "stop") false, Frame.doneMarker]))

/-- A finish-reason frame. -/
def isFinishFrame : Frame → Bool
  | Frame.chunk _ (some _) _ => true
  | _ => false

/-- The `[DONE]` marker. -/
def isDoneFrame : Frame → Bool
  | Frame.doneMarker => true
  | _ => false

/-- One attempt of the non-streaming `chat_completions` retry loop. The
`detail`/`raw` of an HTTP error are the values the handler extracts from
the response body. -/
inductive AttemptOutcome where
  | success (resp : JValue)
  | httpError (status : Nat) (detail : String) (raw : String)
  | requestError (msg : String)
  | otherError (msg : String)

/-- The `last_error_detail` / `last_error_response` pair a failing
attempt leaves behind. -/
def outcomeDetailRaw : AttemptOutcome → Option (String × String)
  | AttemptOutcome.success _ => none
  | AttemptOutcome.httpError _ d r => some (d, r)
  | AttemptOutcome.requestError m => some ("Connection error: " ++ m, m)
  | AttemptOutcome.otherError m => some ("Unexpected error: " ++ m, m)

/-- Upstream calls and backoff sleeps, in order. -/
inductive ChatEvent where
  | callUpstream (attempt : Nat)
  | sleepSeconds (secs : Nat)
deriving Repr, DecidableEq

/-- The in-band failure report of the non-streaming chat path. -/
def chatErrorContent (detail raw : String) : String :=
  "⚠️ **上游API请求失败 (已重试3次)**\n\n**错误信息:** " ++ detail ++
    "\n\n**完整响应:**\n```\n" ++
    (if raw = "" then "N/A" else pyTake raw 2000) ++
    "\n```\n\n请检查上游API服务是否正常运行。"

/-- The synthesized chat completion returned when all retries failed. -/
def mkErrorChatCompletion (nowT : Int) (modelName : String) (detail raw : String) : JValue :=
  JValue.obj (JObj.ofList [
    ("id", JValue.str ("chatcmpl-error-" ++ toString nowT)),
    ("object", JValue.str "chat.completion"),
    ("created", JValue.num nowT),
    ("model", JValue.str modelName),
    ("choices", JValue.arr (JList.ofList [JValue.obj (JObj.ofList [
      ("index", JValue.num 0),
      ("message", JValue.obj (JObj.ofList [
        ("role", JValue.str "assistant"),
        ("content", JValue.str (chatErrorContent detail raw))])),
      ("finish_reason", JValue.str "stop")])])),
    ("usage", JValue.obj (JObj.ofList [
      ("prompt_tokens", JValue.num 0),
      ("completion_tokens", JValue.num 0),
      ("total_tokens", JValue.num 0)]))])

/-- `try: return _process_chat_response(...) except: return upstream`. -/
def processOrOriginal (processOutcome : JValue → Except String JValue) (resp : JValue) :
    JValue :=
  match processOutcome resp with
  | Except.ok p => p
  | Except.error _ => resp

/-- The non-streaming branch of `chat_completions`: up to three upstream
attempts with a 1-second sleep between consecutive attempts; the first
success is post-processed (falling back to the raw response if that
fails); exhaustion synthesizes the in-band error completion from the
last attempt's error info. Returns the response and the call/sleep
trace. -/
def chat_completions_nonstreaming (o1 o2 o3 : AttemptOutcome)
    (processOutcome : JValue → Except String JValue)
    (nowT : Int) (modelName : String) : JValue × List ChatEvent :=
  match o1 with
  | AttemptOutcome.success resp =>
    (processOrOriginal processOutcome resp, [ChatEvent.callUpstream 1])
  | e1 =>
    match o2 with
    | AttemptOutcome.success resp =>
      (processOrOriginal processOutcome resp,
       [ChatEvent.callUpstream 1, ChatEvent.sleepSeconds 1, ChatEvent.callUpstream 2])
    | e2 =>
      match o3 with
      | AttemptOutcome.success resp =>
        (processOrOriginal processOutcome resp,
         [ChatEvent.callUpstream 1, ChatEvent.sleepSeconds 1, ChatEvent.callUpstream 2,
          ChatEvent.sleepSeconds 1, ChatEvent.callUpstream 3])
      | e3 =>
        let dr := (outcomeDetailRaw e3).getD ("", "")
        (mkErrorChatCompletion nowT modelName dr.1 dr.2,
         [ChatEvent.callUpstream 1, ChatEvent.sleepSeconds 1, ChatEvent.callUpstream 2,
          ChatEvent.sleepSeconds 1, ChatEvent.callUpstream 3])

/-! ## Claim theorems -/

theorem listIsPrefix_ne_nil {a : Char} {as : List Char} :
    listIsPrefix (a :: as) [] = false := rfl

theorem listIsPrefix_head {a b : Char} {as bs cs : List Char}
    (h1 : listIsPrefix (a :: as) cs = true) (h2 : listIsPrefix (b :: bs) cs = true) :
    a = b := by
  cases cs with
  | nil => simp [listIsPrefix] at h1
  | cons c t =>
    simp [listIsPrefix] at h1 h2
    rw [h1.1, h2.1]

/-- C10: the base64-image classifier returns `false` for every string
starting with `http://`, `https://` or `/`, so a URL-shaped reference is
never misclassified as inline base64 data. -/
theorem C10_url_shaped_is_not_base64 (s : String)
    (h : pyStartsWith s "http://" = true ∨ pyStartsWith s "https://" = true ∨
         pyStartsWith s "/" = true) :
    is_base64_image s = false := by
  unfold is_base64_image
  by_cases he : s.toList = []
  · exfalso
    rcases h with h | h | h <;>
      (unfold pyStartsWith at h; rw [he] at h; revert h; decide)
  · rw [if_neg he]
    have hdata : pyStartsWith s "data:image/" = false := by
      by_cases hd : pyStartsWith s "data:image/" = true
      · exfalso
        unfold pyStartsWith at hd h
        rcases h with h | h | h <;>
          · have h9 := listIsPrefix_head (by exact_mod_cast hd) (by exact_mod_cast h)
            simp at h9
      · simpa using hd
    rw [hdata]
    simp only [Bool.false_eq_true, if_false]
    have hurl : (pyStartsWith s "http://" || pyStartsWith s "https://" ||
        pyStartsWith s "/") = true := by
      rcases h with h | h | h <;> simp [h]
    rw [hurl]
    simp

/-- C10 witness. -/
theorem C10_witness : is_base64_image "http://example.com/a.png" = false :=
  C10_url_shaped_is_not_base64 "http://example.com/a.png" (Or.inl (by decide))

/-- C9: `get_base64` validates the id shape before any I/O: when the
stripped id fails the UUID-shape test (36 characters, 4 hyphens), it
returns `None` without raising, leaves the store untouched, and performs
no file or archive access (empty event trace). -/
theorem C9_get_base64_validates_before_io (st : StoreState) (settings : SettingsModel)
    (id0 : String) (h : uuidShape36 (pyStrip id0).toList = false) :
    get_base64 st settings id0 = (none, st, []) := by
  unfold get_base64
  by_cases he : id0.toList = []
  · rw [if_pos he]
  · rw [if_neg he, if_pos h]

/-- C9 witness. -/
theorem C9_witness :
    get_base64 { records := [], files := [], remote := [] }
      { local_cache_ttl_hours := 72, metadata_retention_days := 365,
        max_local_cache_mb := 0, delete_r2_on_metadata_expire := false,
        r2_configured := false } "not-a-uuid" =
      (none, { records := [], files := [], remote := [] }, []) :=
  C9_get_base64_validates_before_io _ _ "not-a-uuid" (by decide)

/-- The state of claim C3's invariant: no record is left with both copy
flags false. -/
def noOrphanRecords (st : StoreState) : Prop :=
  ∀ r ∈ st.records, r.has_local_copy = true ∨ r.has_r2_copy = true

/-- A store holding one record with both copy flags false, created just
now. -/
def orphanNowState : StoreState :=
  { records := [{
      image_id := "aaaaaaaa-aaaa-aaaa-aaaa-aaaaaaaaaaaa"
      local_path := ""
      r2_key := "openwebui/aaaaaaaa-aaaa-aaaa-aaaa-aaaaaaaaaaaa.png"
      size_bytes := 10
      content_type := "image/png"
      has_local_copy := false
      has_r2_copy := false
      upload_status := "failed"
      upload_error := "boom"
      created_at := 1000000
      last_accessed_at := 1000000 }]
    files := []
    remote := [] }

/-- Default settings record used by concrete instances. -/
def defaultSettings : SettingsModel :=
  { local_cache_ttl_hours := 72, metadata_retention_days := 365,
    max_local_cache_mb := 0, delete_r2_on_metadata_expire := false,
    r2_configured := false }

/-- C3 counterexample: a record with `has_local_copy = false` and
`has_r2_copy = false` created within the retention period survives a full
cleanup cycle (TTL pass then metadata pass) with both flags still false —
the invariant claimed by the spec does not hold after one cycle. -/
theorem C3_counterexample :
    ¬ noOrphanRecords (cleanupCycle orphanNowState 1000000 defaultSettings) := by
  intro h
  have := h { image_id := "aaaaaaaa-aaaa-aaaa-aaaa-aaaaaaaaaaaa"
              local_path := ""
              r2_key := "openwebui/aaaaaaaa-aaaa-aaaa-aaaa-aaaaaaaaaaaa.png"
              size_bytes := 10
              content_type := "image/png"
              has_local_copy := false
              has_r2_copy := false
              upload_status := "failed"
              upload_error := "boom"
              created_at := 1000000
              last_accessed_at := 1000000 } (by decide)
  simp at this

/-- C3 amended: a record with both copy flags false survives a cleanup
cycle exactly while it is younger than the metadata retention period;
after one cycle every surviving record with `has_local_copy = false`
(in particular every orphan) has `created_at` at or after the retention
cutoff — older ones were deleted by the metadata pass. -/
theorem C3_orphans_bounded_by_retention (st : StoreState) (now : Int)
    (settings : SettingsModel) :
    ∀ r ∈ (cleanupCycle st now settings).records,
      r.has_local_copy = false →
      now - (orDefaultNat settings.metadata_retention_days 365) * 86400 ≤ r.created_at := by
  intro r hr hflag
  unfold cleanupCycle cleanup_expired_metadata at hr
  simp only [List.mem_filter] at hr
  have := hr.2
  simp [hflag] at this
  omega

/-- C3 amended witness: the young orphan record above survives, and its
`created_at` is within the cutoff bound. -/
theorem C3_orphans_bounded_witness :
    1000000 - (orDefaultNat defaultSettings.metadata_retention_days 365) * 86400 ≤
      ({ image_id := "aaaaaaaa-aaaa-aaaa-aaaa-aaaaaaaaaaaa", local_path := "",
         r2_key := "openwebui/aaaaaaaa-aaaa-aaaa-aaaa-aaaaaaaaaaaa.png",
         size_bytes := 10, content_type := "image/png", has_local_copy := false,
         has_r2_copy := false, upload_status := "failed", upload_error := "boom",
         created_at := 1000000, last_accessed_at := 1000000 } : ImageRec).created_at :=
  C3_orphans_bounded_by_retention orphanNowState 1000000 defaultSettings
    { image_id := "aaaaaaaa-aaaa-aaaa-aaaa-aaaaaaaaaaaa", local_path := "",
      r2_key := "openwebui/aaaaaaaa-aaaa-aaaa-aaaa-aaaaaaaaaaaa.png",
      size_bytes := 10, content_type := "image/png", has_local_copy := false,
      has_r2_copy := false, upload_status := "failed", upload_error := "boom",
      created_at := 1000000, last_accessed_at := 1000000 }
    (by decide) (by decide)

/-- Claim C6's termination shape: the stream ends with a finish-reason
frame immediately followed by the `[DONE]` marker. -/
def endsWithFinishDone (frames : List Frame) : Prop :=
  ∃ pre c b r, frames = pre ++ [Frame.chunk c (some r) b, Frame.doneMarker]

/-- C6 counterexample: a passthrough stream whose upstream iterator
completes immediately (zero lines) emits no frames at all — in
particular no finish-reason frame and no `[DONE]` — refuting the claim
that every streaming response ends with a finish frame and `[DONE]`. -/
theorem C6_counterexample :
    generate_passthrough_stream ⟨[], true⟩ ⟨[], true⟩ ⟨[], true⟩ none "" "" = [] ∧
    ¬ endsWithFinishDone
        (generate_passthrough_stream ⟨[], true⟩ ⟨[], true⟩ ⟨[], true⟩ none "" "") := by
  constructor
  · rfl
  · intro ⟨pre, c, b, r, hpre⟩
    have : ([] : List Frame).length = (pre ++ [Frame.chunk c (some r) b, Frame.doneMarker]).length := by
      rw [← hpre]
      rfl
    simp at this

theorem countP_heartbeats_finish (hb : Nat) :
    ((List.range hb).map heartbeatFrame).countP isFinishFrame = 0 := by
  rw [List.countP_eq_zero]
  intro f hf
  obtain ⟨k, _, hk⟩ := List.mem_map.mp hf
  rw [← hk]
  simp [heartbeatFrame, isFinishFrame]

theorem countP_heartbeats_done (hb : Nat) :
    ((List.range hb).map heartbeatFrame).countP isDoneFrame = 0 := by
  rw [List.countP_eq_zero]
  intro f hf
  obtain ⟨k, _, hk⟩ := List.mem_map.mp hf
  rw [← hk]
  simp [heartbeatFrame, isDoneFrame]

theorem countP_attemptFrames_finish (a : StreamAttempt) :
    (attemptFrames a).countP isFinishFrame = 0 := by
  rw [List.countP_eq_zero]
  intro f hf
  obtain ⟨l, _, hl⟩ := List.mem_map.mp hf
  rw [← hl]
  simp [isFinishFrame]

theorem countP_attemptFrames_done (a : StreamAttempt) :
    (attemptFrames a).countP isDoneFrame = 0 := by
  rw [List.countP_eq_zero]
  intro f hf
  obtain ⟨l, _, hl⟩ := List.mem_map.mp hf
  rw [← hl]
  simp [isDoneFrame]

/-- C6 amended: (1) every interactive stream on the fetch-failure path,
and every interactive stream on the fetch-success path whose
response-formatting step yields its single content chunk, ends with
exactly one finish-reason frame immediately followed by exactly one
`[DONE]` marker; (2) the terminal block is independent of the heartbeat
count and all heartbeat frames precede it, so no heartbeat frame is
emitted after the upstream task completes; (3) a passthrough stream
synthesizes its error frame, exactly one finish frame and exactly one
`[DONE]` only when all three attempts fail, and a completed attempt
forwards the upstream lines verbatim with no gateway-synthesized finish
or `[DONE]` appended. -/
theorem C6_streaming_termination (urls : List String) (hb : Nat)
    (res : FetchResult) (rm : Option String)
    (a1 a2 a3 : StreamAttempt) (code : Option Nat) (detail raw : String) :
    ((∀ cde dtl rw2, res = FetchResult.failure cde dtl rw2 →
        (generate_interactive_stream urls hb res rm).countP isFinishFrame = 1 ∧
        (generate_interactive_stream urls hb res rm).countP isDoneFrame = 1 ∧
        endsWithFinishDone (generate_interactive_stream urls hb res rm)) ∧
     (∀ resp m, res = FetchResult.success resp → rm = some m →
        (generate_interactive_stream urls hb res rm).countP isFinishFrame = 1 ∧
        (generate_interactive_stream urls hb res rm).countP isDoneFrame = 1 ∧
        endsWithFinishDone (generate_interactive_stream urls hb res rm)) ∧
     (∃ tail, ∀ hb2, generate_interactive_stream urls hb2 res rm =
        Frame.chunk (welcomeMsg urls) none true ::
          ((List.range hb2).map heartbeatFrame ++ tail)) ∧
     (a1.completed = false → a2.completed = false → a3.completed = false →
        (generate_passthrough_stream a1 a2 a3 code detail raw).countP isFinishFrame = 1 ∧
        (generate_passthrough_stream a1 a2 a3 code detail raw).countP isDoneFrame = 1 ∧
        endsWithFinishDone (generate_passthrough_stream a1 a2 a3 code detail raw)) ∧
     (a1.completed = true →
        generate_passthrough_stream a1 a2 a3 code detail raw = attemptFrames a1 ∧
        (attemptFrames a1).countP isFinishFrame = 0 ∧
        (attemptFrames a1).countP isDoneFrame = 0)) := by
  refine ⟨?_, ?_, ?_, ?_, ?_⟩
  · intro cde dtl rw2 hres
    subst hres
    refine ⟨?_, ?_, ?_⟩
    · simp [generate_interactive_stream, List.countP_cons, List.countP_append,
        countP_heartbeats_finish, isFinishFrame, heartbeatFrame, List.countP_nil]
    · simp [generate_interactive_stream, List.countP_cons, List.countP_append,
        countP_heartbeats_done, isDoneFrame, heartbeatFrame, List.countP_nil]
    · refine ⟨Frame.chunk (welcomeMsg urls) none true ::
        ((List.range hb).map heartbeatFrame ++
          [Frame.chunk (interactiveErrorMsg cde dtl rw2) none false]), "", false, "stop", ?_⟩
      simp [generate_interactive_stream]
  · intro resp m hres hm
    subst hres
    subst hm
    refine ⟨?_, ?_, ?_⟩
    · simp [generate_interactive_stream, List.countP_cons, List.countP_append,
        countP_heartbeats_finish, isFinishFrame, heartbeatFrame, List.countP_nil]
    · simp [generate_interactive_stream, List.countP_cons, List.countP_append,
        countP_heartbeats_done, isDoneFrame, heartbeatFrame, List.countP_nil]
    · refine ⟨Frame.chunk (welcomeMsg urls) none true ::
        ((List.range hb).map heartbeatFrame ++
          [Frame.chunk processMsg none false, Frame.chunk m none false]), "", false, "stop", ?_⟩
      simp [generate_interactive_stream]
  · refine ⟨(match res with
      | FetchResult.failure cde dtl rw2 =>
        [Frame.chunk (interactiveErrorMsg cde dtl rw2) none false,
         Frame.chunk "" (some "stop") false, Frame.doneMarker]
      | FetchResult.success _ =>
        Frame.chunk processMsg none false ::
          (match rm with
           | some m =>
             [Frame.chunk m none false,
              Frame.chunk "" (some "stop") false, Frame.doneMarker]
           | none => [])), ?_⟩
    intro hb2
    rfl
  · intro h1 h2 h3
    refine ⟨?_, ?_, ?_⟩
    · simp [generate_passthrough_stream, h1, h2, h3, List.countP_append,
        countP_attemptFrames_finish, isFinishFrame, List.countP_nil]
    · simp [generate_passthrough_stream, h1, h2, h3, List.countP_append,
        countP_attemptFrames_done, isDoneFrame, List.countP_nil]
    · refine ⟨attemptFrames a1 ++ (attemptFrames a2 ++ (attemptFrames a3 ++
        [Frame.chunk (passthroughErrorMsg code detail raw) none true])),
        "", false, "stop", ?_⟩
      simp [generate_passthrough_stream, h1, h2, h3]
  · intro h1
    refine ⟨?_, countP_attemptFrames_finish a1, countP_attemptFrames_done a1⟩
    simp [generate_passthrough_stream, h1]

/-- C6 amended witness at concrete arguments. -/
theorem C6_streaming_termination_witness :
    (generate_interactive_stream [] 2 (FetchResult.failure (some 500) "boom" "raw")
        none).countP isFinishFrame = 1 ∧
    endsWithFinishDone (generate_passthrough_stream ⟨["a"], false⟩ ⟨[], false⟩ ⟨[], false⟩
        (some 502) "d" "r") := by
  have h := C6_streaming_termination [] 2 (FetchResult.failure (some 500) "boom" "raw")
    none ⟨["a"], false⟩ ⟨[], false⟩ ⟨[], false⟩ (some 502) "d" "r"
  exact ⟨(h.1 (some 500) "boom" "raw" rfl).1, (h.2.2.2.1 rfl rfl rfl).2.2⟩

/-- C7: the non-streaming chat path calls the upstream at most 3 times
with a fixed 1-second sleep between consecutive attempts on any error;
a success short-circuits into response post-processing; and when all
three attempts fail the gateway returns a well-formed chat completion
whose single choice is an assistant-role message whose content is the
failure report embedding the last error detail and the raw response
truncated to 2000 characters (`N/A` when empty) — no transport error is
propagated. -/
theorem C7_nonstreaming_retry (o1 o2 o3 : AttemptOutcome)
    (pf : JValue → Except String JValue) (nowT : Int) (modelName : String) :
    ((chat_completions_nonstreaming o1 o2 o3 pf nowT modelName).2 =
        [ChatEvent.callUpstream 1] ∨
     (chat_completions_nonstreaming o1 o2 o3 pf nowT modelName).2 =
        [ChatEvent.callUpstream 1, ChatEvent.sleepSeconds 1, ChatEvent.callUpstream 2] ∨
     (chat_completions_nonstreaming o1 o2 o3 pf nowT modelName).2 =
        [ChatEvent.callUpstream 1, ChatEvent.sleepSeconds 1, ChatEvent.callUpstream 2,
         ChatEvent.sleepSeconds 1, ChatEvent.callUpstream 3]) ∧
    (∀ resp, o1 = AttemptOutcome.success resp →
      chat_completions_nonstreaming o1 o2 o3 pf nowT modelName =
        (processOrOriginal pf resp, [ChatEvent.callUpstream 1])) ∧
    (∀ d1 r1 d2 r2 d3 r3,
      outcomeDetailRaw o1 = some (d1, r1) →
      outcomeDetailRaw o2 = some (d2, r2) →
      outcomeDetailRaw o3 = some (d3, r3) →
      (chat_completions_nonstreaming o1 o2 o3 pf nowT modelName).1 =
        mkErrorChatCompletion nowT modelName d3 r3) ∧
    (∀ d r, ∃ choice msgFs,
      jGet (mkErrorChatCompletion nowT modelName d r) "choices" =
        some (JValue.arr (JList.cons choice JList.nil)) ∧
      jGet choice "message" = some (JValue.obj msgFs) ∧
      msgFs.get? "role" = some (JValue.str "assistant") ∧
      msgFs.get? "content" = some (JValue.str (chatErrorContent d r)) ∧
      jGet choice "finish_reason" = some (JValue.str "stop") ∧
      ∃ pre mid post, chatErrorContent d r =
        pre ++ d ++ mid ++ (if r = "" then "N/A" else pyTake r 2000) ++ post) := by
  refine ⟨?_, ?_, ?_, ?_⟩
  · cases o1 <;> try exact Or.inl rfl
    all_goals cases o2 <;> try exact Or.inr (Or.inl rfl)
    all_goals cases o3 <;> exact Or.inr (Or.inr rfl)
  · intro resp h1
    subst h1
    rfl
  · intro d1 r1 d2 r2 d3 r3 h1 h2 h3
    cases o1 <;> cases o2 <;> cases o3 <;>
      simp_all [chat_completions_nonstreaming, outcomeDetailRaw] <;>
      (try rw [← h3.2, ← h3.1])
  · intro d r
    refine ⟨_, _, rfl, rfl, rfl, rfl, rfl,
      "⚠️ **上游API请求失败 (已重试3次)**\n\n**错误信息:** ",
      "\n\n**完整响应:**\n```\n",
      "\n```\n\n请检查上游API服务是否正常运行。", rfl⟩

/-- C7 witness at concrete outcomes (all three attempts fail). -/
theorem C7_nonstreaming_retry_witness :
    (chat_completions_nonstreaming (AttemptOutcome.requestError "refused")
        (AttemptOutcome.httpError 502 "bad gateway" "{}")
        (AttemptOutcome.otherError "boom") Except.ok 1700000000 "picgate").1 =
      mkErrorChatCompletion 1700000000 "picgate" "Unexpected error: boom" "boom" := by
  exact (C7_nonstreaming_retry (AttemptOutcome.requestError "refused")
      (AttemptOutcome.httpError 502 "bad gateway" "{}")
      (AttemptOutcome.otherError "boom") Except.ok 1700000000 "picgate").2.2.1
    "Connection error: refused" "refused" "bad gateway" "{}"
    "Unexpected error: boom" "boom" rfl rfl rfl

theorem except_bind_error {ε α β : Type} (e : ε) (f : α → Except ε β) :
    (Except.error e : Except ε α) >>= f = Except.error e := rfl

theorem except_bind_ok {ε α β : Type} (a : α) (f : α → Except ε β) :
    (Except.ok a : Except ε α) >>= f = f a := rfl

theorem except_map_error {ε α β : Type} (e : ε) (f : α → β) :
    (Except.error e : Except ε α).map f = Except.error e := rfl

theorem except_map_ok {ε α β : Type} (a : α) (f : α → β) :
    (Except.ok a : Except ε α).map f = Except.ok (f a) := rfl

/-- The rewrite environment of C1's counterexample: external fetching
disallowed, no stored images. -/
def envNoFetch : RewriteEnv :=
  { allow_external_fetch := false
    public_base_url := ""
    localResolve := fun _ => none
    extFetch := fun _ => none
    parseJson := fun _ => none
    dumpJson := fun _ => "" }

/-- C1 counterexample: a payload whose only image reference is an
external URL inside markdown string content is rewritten successfully
(returned unchanged), with no security error and no abort — the
`try/except` around `_url_to_base64` in
`_convert_string_to_structured_content` swallows the security
`ValueError` and keeps the match as text. -/
theorem C1_counterexample :
    rewrite envNoFetch 0
        (JValue.obj (JObj.cons "content"
          (JValue.str "![x](http://evil.example/a.png)") JObj.nil)) =
      Except.ok (JValue.obj (JObj.cons "content"
        (JValue.str "![x](http://evil.example/a.png)") JObj.nil)) := by
  rfl

theorem pyStrip_empty_of_empty {s : String} (h : s.toList = []) :
    (pyStrip s).toList = [] := by
  unfold pyStrip pyStripList
  rw [h]
  rfl

/-- C1 amended: with `allowExternalImageFetch = false`, an external
(non-resolvable-locally) image URL aborts the entire rewrite with the
security error naming the truncated URL only when it sits in an
`image`/`init_image`/`mask` field; the same URL inside markdown string
content or inside a content-array `image_url` item is caught by the
per-item `try/except` and the payload is returned unchanged, with no
error. -/
theorem C1_security_gate (env : RewriteEnv) (fuel : Nat) (url : String) (k : String)
    (hallow : env.allow_external_fetch = false)
    (hkey : k = "image" ∨ k = "init_image" ∨ k = "mask")
    (hb64 : is_base64_image url = false)
    (hne : ¬((pyStrip url).toList = []))
    (hlocal : ∀ iid, extract_image_id_from_url (pyStrip url) env.public_base_url = some iid →
      env.localResolve iid = none) :
    rewrite env fuel (JValue.obj (JObj.cons k (JValue.str url) JObj.nil)) =
      Except.error (securityErrorMsg (pyStrip url)) ∧
    (∀ s : String, rewrite env fuel (JValue.obj (JObj.cons "content" (JValue.str s) JObj.nil)) =
      Except.ok (JValue.obj (JObj.cons "content"
        (convert_string_to_structured_content env s) JObj.nil))) ∧
    rewrite env fuel (JValue.obj (JObj.cons "content"
        (JValue.arr (JList.cons
          (JValue.obj (JObj.cons "type" (JValue.str "image_url")
            (JObj.cons "image_url" (JValue.obj (JObj.cons "url" (JValue.str url) JObj.nil))
              JObj.nil)))
          JList.nil)) JObj.nil)) =
      Except.ok (JValue.obj (JObj.cons "content"
        (JValue.arr (JList.cons
          (JValue.obj (JObj.cons "type" (JValue.str "image_url")
            (JObj.cons "image_url" (JValue.obj (JObj.cons "url" (JValue.str url) JObj.nil))
              JObj.nil)))
          JList.nil)) JObj.nil)) := by
  have hvia : (match extract_image_id_from_url (pyStrip url) env.public_base_url with
      | some imageId => env.localResolve imageId
      | none => none) = none := by
    cases hx : extract_image_id_from_url (pyStrip url) env.public_base_url with
    | none => rfl
    | some iid => exact hlocal iid hx
  have hurl : url_to_base64 env url = Except.error (securityErrorMsg (pyStrip url)) := by
    unfold url_to_base64
    simp only [hne, if_false, ite_false, hvia, hallow]
    simp
  have hunotnil : ¬(url.toList = []) := by
    intro h
    exact hne (pyStrip_empty_of_empty h)
  refine ⟨?_, ?_, ?_⟩
  · rcases hkey with hk | hk | hk <;>
      (subst hk
       simp [rewrite, rewrite_value, rewrite_valueC, rewrite_dictC, convert_image_field,
         hb64, hurl, except_bind_error, except_bind_ok, except_map_error, except_map_ok])
  · intro s
    simp [rewrite, rewrite_value, rewrite_valueC, rewrite_dictC,
      except_bind_error, except_bind_ok, except_map_error, except_map_ok]
  · simp only [rewrite, rewrite_value, rewrite_valueC, rewrite_dictC,
      rewrite_content_arrayC]
    simp [imageUrlishItem, contentItemUrlVal, JObj.get?, jTruthy, hunotnil, hb64, hurl,
      except_bind_error, except_bind_ok, except_map_error, except_map_ok]

/-- C1 amended witness at a concrete external URL in an `image` field. -/
theorem C1_security_gate_witness :
    rewrite envNoFetch 0
        (JValue.obj (JObj.cons "image" (JValue.str "http://evil.example/a.png") JObj.nil)) =
      Except.error (securityErrorMsg (pyStrip "http://evil.example/a.png")) :=
  (C1_security_gate envNoFetch 0 "http://evil.example/a.png" "image" rfl (Or.inl rfl)
    (by decide) (by decide) (fun iid _ => rfl)).1

theorem collapseParts_of_imageUrl_mem {ps : List JValue} {u : String}
    (h : mkImageUrlPart u ∈ ps) : collapseParts ps = JValue.arr (JList.ofList ps) := by
  rcases ps with _ | ⟨p, _ | ⟨q, rest⟩⟩
  · cases h
  · obtain rfl := List.mem_singleton.mp h
    simp [collapseParts, jGet, mkImageUrlPart, JObj.get?]
  · rfl

theorem pyStripList_nil_all_space {cs : List Char} (h : pyStripList cs = []) :
    ∀ c ∈ cs, isPySpace c = true := by
  unfold pyStripList at h
  have h2 : (cs.dropWhile isPySpace).reverse.dropWhile isPySpace = [] := by
    have := congrArg List.reverse h
    simpa using this
  rw [List.dropWhile_eq_nil_iff] at h2
  intro c hc
  rw [← List.takeWhile_append_dropWhile isPySpace cs] at hc
  rcases List.mem_append.mp hc with hmem | hmem
  · exact List.mem_takeWhile_imp hmem
  · exact h2 c (List.mem_reverse.mpr hmem)

theorem matchMdAt_head {cs : List Char} {x : List Char × List Char × List Char}
    (h : matchMdAt cs = some x) : ∃ t, cs = '!' :: t := by
  obtain ⟨alt, url, rest⟩ := x
  have := matchMdAt_eq h
  exact ⟨_, this⟩

theorem mdScanF_all_space_noImg :
    ∀ (f : Nat) (cs acc : List Char), (∀ c ∈ cs, isPySpace c = true) →
      mdHasImg (mdScanF f cs acc) = false := by
  intro f
  induction f with
  | zero =>
    intro cs acc h
    cases cs <;> by_cases ha : acc = [] <;> simp [mdScanF, ha, mdHasImg]
  | succ f ih =>
    intro cs acc h
    cases cs with
    | nil => by_cases ha : acc = [] <;> simp [mdScanF, ha, mdHasImg]
    | cons c rest =>
      cases hm : matchMdAt (c :: rest) with
      | some x =>
        exfalso
        obtain ⟨t, ht⟩ := matchMdAt_head hm
        have hcx : c = '!' := by injection ht with h1 _
        have := h c (by simp)
        rw [hcx] at this
        simp [isPySpace] at this
      | none =>
        have := ih rest (c :: acc) (fun x hx => h x (by simp [hx]))
        simp [mdScanF, hm, this]

/-- C4 counterexample: string content holding one markdown image with a
whitespace-only gap before it. The conversion drops the whitespace-only
text segment (`if text_before.strip()`), so the structured result does
not preserve the surrounding text exactly as the claim states. -/
theorem C4_counterexample :
    convert_string_to_structured_content envNoFetch
        " ![i](data:image/png;base64,QQ==) x" =
      JValue.arr (JList.ofList
        [mkImageUrlPart "data:image/png;base64,QQ==", mkTextPart " x"]) ∧
    ¬(convert_string_to_structured_content envNoFetch
        " ![i](data:image/png;base64,QQ==) x" =
      JValue.arr (JList.ofList
        [mkTextPart " ", mkImageUrlPart "data:image/png;base64,QQ==",
         mkTextPart " x"])) := by
  constructor
  · rfl
  · decide

/-- C4 amended: a `content` string with no markdown image match is
returned unchanged as a string, never promoted to a sequence; a string
with at least one match, whose matched URLs all strip to nonempty
strings that are either already base64 data or successfully resolvable,
is converted to the structured array obtained segment-wise from the
markdown decomposition — nonblank text segments become `{type: text}`
parts in order, images become `{type: image_url}` parts in match order,
and whitespace-only text gaps are dropped — where the decomposition
reconstructs the original string exactly. -/
theorem C4_content_string_structuring (env : RewriteEnv) (content : String)
    (hres : ∀ alt url, MdSeg.img alt url ∈ mdScan content.toList [] →
      ¬((pyStrip (String.mk url)).toList = []) ∧
      (is_base64_image (pyStrip (String.mk url)) = true ∨
       ∃ b, url_to_base64 env (pyStrip (String.mk url)) = Except.ok (some b))) :
    mdJoin (mdScan content.toList []) = content.toList ∧
    (mdHasImg (mdScan content.toList []) = false →
      convert_string_to_structured_content env content = JValue.str content) ∧
    (mdHasImg (mdScan content.toList []) = true →
      convert_string_to_structured_content env content =
        JValue.arr (JList.ofList
          ((mdScan content.toList []).filterMap (structuredPart env)))) := by
  refine ⟨by simpa using mdJoin_mdScan content.toList [], ?_, ?_⟩
  · intro hno
    unfold convert_string_to_structured_content
    by_cases he : content.toList = [] ∨ pyStripList content.toList = []
    · rw [if_pos he]
    · rw [if_neg he]
      rw [if_pos hno]
  · intro hyes
    have hnonempty : ¬(content.toList = [] ∨ pyStripList content.toList = []) := by
      rintro (h0 | hws)
      · rw [show mdScan content.toList [] = mdScanF content.toList.length content.toList []
          from rfl, h0] at hyes
        simp [mdScanF, mdHasImg] at hyes
      · have := mdScanF_all_space_noImg content.toList.length content.toList []
          (pyStripList_nil_all_space hws)
        rw [show mdScan content.toList [] = mdScanF content.toList.length content.toList []
          from rfl, this] at hyes
        cases hyes
    unfold convert_string_to_structured_content
    rw [if_neg hnonempty]
    have himg : ∃ alt url, MdSeg.img alt url ∈ mdScan content.toList [] := by
      unfold mdHasImg at hyes
      obtain ⟨seg, hseg, hval⟩ := List.any_eq_true.mp hyes
      cases seg with
      | text t => simp at hval
      | img alt url => exact ⟨alt, url, hseg⟩
    obtain ⟨alt, url, hmem⟩ := himg
    obtain ⟨hne2, hcase⟩ := hres alt url hmem
    have hexists : ∃ u2, mkImageUrlPart u2 ∈
        (mdScan content.toList []).filterMap (structuredPart env) := by
      by_cases hb64 : is_base64_image (pyStrip (String.mk url)) = true
      · refine ⟨pyStrip (String.mk url), List.mem_filterMap.mpr ⟨_, hmem, ?_⟩⟩
        simp [structuredPart, hb64]
      · obtain ⟨b, hb⟩ := hcase.resolve_left hb64
        refine ⟨dataUri (guess_content_type (pyStrip (String.mk url))) b,
          List.mem_filterMap.mpr ⟨_, hmem, ?_⟩⟩
        have hb64f : is_base64_image (pyStrip (String.mk url)) = false := by
          simpa using hb64
        have hne2d : ¬((pyStrip (String.mk url)).data = []) := hne2
        simp [structuredPart, hb64f, hb, hne2d]
    obtain ⟨u2, hu2⟩ := hexists
    simp only [hyes]
    simp only [Bool.true_eq_false, if_false, ite_false]
    exact collapseParts_of_imageUrl_mem hu2

/-- C4 amended witness at a concrete resolvable content string. -/
theorem C4_content_string_structuring_witness :
    convert_string_to_structured_content envNoFetch
        "see ![cat](data:image/png;base64,QQ==) now" =
      JValue.arr (JList.ofList
        ((mdScan "see ![cat](data:image/png;base64,QQ==) now".toList []).filterMap
          (structuredPart envNoFetch))) :=
  (C4_content_string_structuring envNoFetch
      "see ![cat](data:image/png;base64,QQ==) now"
      (by
        intro alt url hmem2
        have heval : mdScan "see ![cat](data:image/png;base64,QQ==) now".toList [] =
            [MdSeg.text "see ".toList,
             MdSeg.img "cat".toList "data:image/png;base64,QQ==".toList,
             MdSeg.text " now".toList] := by rfl
        rw [heval] at hmem2
        simp only [List.mem_cons, List.not_mem_nil, or_false] at hmem2
        rcases hmem2 with h | h | h
        · exact MdSeg.noConfusion h
        · injection h with ha hu
          subst ha; subst hu
          exact ⟨by decide, Or.inl (by decide)⟩
        · exact MdSeg.noConfusion h)).2.2 (by decide)

theorem lookupFile_setFile (fs : List (String × List Nat)) (n : String) (b : List Nat) :
    lookupFile (setFile fs n b) n = some b := by
  induction fs with
  | nil => simp [setFile, lookupFile]
  | cons p rest ih =>
    by_cases hp : p.1 = n
    · simp [setFile, lookupFile, hp]
    · simp [setFile, lookupFile, hp, ih]

theorem findRec_updateRec {recs : List ImageRec} {id : String} {r : ImageRec}
    (h : findRec recs id = some r) (f : ImageRec → ImageRec)
    (hpres : ∀ x, (f x).image_id = x.image_id) :
    findRec (updateRec recs id f) id = some (f r) := by
  induction recs with
  | nil => simp [findRec] at h
  | cons x rest ih =>
    by_cases hx : x.image_id = id
    · have hxr : x = r := by
        simp [findRec, List.find?, hx] at h
        exact h
      subst hxr
      simp [findRec, updateRec, List.find?, hx, hpres x]
    · have h2 : findRec rest id = some r := by
        simpa [findRec, List.find?, hx] using h
      have := ih h2
      simp [findRec, updateRec, List.find?, hx] at this ⊢
      exact this

theorem findRec_append_fresh {recs : List ImageRec} {id : String} {rec1 : ImageRec}
    (hfresh : ∀ x ∈ recs, ¬(x.image_id = id)) (hid : rec1.image_id = id) :
    findRec (recs ++ [rec1]) id = some rec1 := by
  induction recs with
  | nil => simp [findRec, List.find?, hid]
  | cons x rest ih =>
    have hx : ¬(x.image_id = id) := hfresh x (by simp)
    have := ih (fun y hy => hfresh y (by simp [hy]))
    simp [findRec, List.find?, hx] at this ⊢
    exact this

/-- C5: for a record with `has_local_copy = false` and
`has_r2_copy = true` whose archived bytes are retrievable, `get_base64`
returns exactly those bytes (base64-encoded), writes them back to the
local disk, and leaves the record with `has_local_copy = true` and its
`local_path` set — the remote read self-heals the local tier. -/
theorem C5_remote_fallback_heals (st : StoreState) (settings : SettingsModel)
    (id : String) (r : ImageRec) (bs : List Nat)
    (hfind : findRec st.records id = some r)
    (hlocal : r.has_local_copy = false)
    (hremote : r.has_r2_copy = true)
    (hconf : settings.r2_configured = true)
    (hbytes : lookupFile st.remote ("openwebui/" ++ id ++ ".png") = some bs)
    (hstrip : pyStrip id = id)
    (hshape : uuidShape36 id.toList = true) :
    get_base64 st settings id =
      (some (b64encodeStr bs),
       { st with
         files := setFile st.files
           (id ++ get_extension (if r.content_type = "" then "image/png" else r.content_type)) bs
         records := updateRec st.records id
           (fun x => { x with
             has_local_copy := true
             local_path := id ++ get_extension
               (if r.content_type = "" then "image/png" else r.content_type) }) },
       [IOEvent.remoteDownload ("openwebui/" ++ id ++ ".png"),
        IOEvent.fileWrite (id ++ get_extension
          (if r.content_type = "" then "image/png" else r.content_type))]) ∧
    findRec (updateRec st.records id
        (fun x => { x with
          has_local_copy := true
          local_path := id ++ get_extension
            (if r.content_type = "" then "image/png" else r.content_type) })) id =
      some { r with
        has_local_copy := true
        local_path := id ++ get_extension
          (if r.content_type = "" then "image/png" else r.content_type) } ∧
    lookupFile (setFile st.files
        (id ++ get_extension (if r.content_type = "" then "image/png" else r.content_type)) bs)
      (id ++ get_extension (if r.content_type = "" then "image/png" else r.content_type)) =
      some bs := by
  have hne : ¬(id.toList = []) := by
    intro h0
    rw [h0] at hshape
    exact absurd hshape (by decide)
  have hshape2 : uuidShape36 id.data = true := hshape
  refine ⟨?_, findRec_updateRec hfind _ (fun x => rfl), lookupFile_setFile _ _ _⟩
  have h1 : get_local_path st id = (none, st, []) := by
    simp [get_local_path, hfind, hlocal]
  have h2 : r2Fallback st settings id [] =
      (some (b64encodeStr bs),
       { st with
         files := setFile st.files
           (id ++ get_extension (if r.content_type = "" then "image/png" else r.content_type)) bs
         records := updateRec st.records id
           (fun x => { x with
             has_local_copy := true
             local_path := id ++ get_extension
               (if r.content_type = "" then "image/png" else r.content_type) }) },
       [IOEvent.remoteDownload ("openwebui/" ++ id ++ ".png"),
        IOEvent.fileWrite (id ++ get_extension
          (if r.content_type = "" then "image/png" else r.content_type))]) := by
    simp [r2Fallback, hfind, hremote, hconf, hbytes]
  unfold get_base64
  rw [if_neg hne, hstrip]
  rw [if_neg (by simp [hshape, hshape2])]
  rw [h1]
  exact h2

/-- C5 witness: a concrete archived-only record heals on read. -/
theorem C5_witness :
    (get_base64
      { records := [{
          image_id := "12345678-1234-1234-1234-123456789abc"
          local_path := ""
          r2_key := "openwebui/12345678-1234-1234-1234-123456789abc.png"
          size_bytes := 3
          content_type := "image/png"
          has_local_copy := false
          has_r2_copy := true
          upload_status := "uploaded"
          upload_error := ""
          created_at := 0
          last_accessed_at := 0 }]
        files := []
        remote := [("openwebui/12345678-1234-1234-1234-123456789abc.png", [1, 2, 3])] }
      { defaultSettings with r2_configured := true }
      "12345678-1234-1234-1234-123456789abc").1 = some (b64encodeStr [1, 2, 3]) := by
  have h := C5_remote_fallback_heals
    { records := [{
        image_id := "12345678-1234-1234-1234-123456789abc"
        local_path := ""
        r2_key := "openwebui/12345678-1234-1234-1234-123456789abc.png"
        size_bytes := 3
        content_type := "image/png"
        has_local_copy := false
        has_r2_copy := true
        upload_status := "uploaded"
        upload_error := ""
        created_at := 0
        last_accessed_at := 0 }]
      files := []
      remote := [("openwebui/12345678-1234-1234-1234-123456789abc.png", [1, 2, 3])] }
    { defaultSettings with r2_configured := true }
    "12345678-1234-1234-1234-123456789abc"
    { image_id := "12345678-1234-1234-1234-123456789abc"
      local_path := ""
      r2_key := "openwebui/12345678-1234-1234-1234-123456789abc.png"
      size_bytes := 3
      content_type := "image/png"
      has_local_copy := false
      has_r2_copy := true
      upload_status := "uploaded"
      upload_error := ""
      created_at := 0
      last_accessed_at := 0 }
    [1, 2, 3] (by decide) rfl rfl rfl (by decide) (by decide) (by decide)
  rw [h.1]

theorem b64ValChar_ne_colon (n : Nat) : ¬(b64ValChar n = ':') := by
  rcases Nat.lt_or_ge n 64 with h | h
  · exact (by decide : ∀ m, m < 64 → ¬(b64ValChar m = ':')) n h
  · unfold b64ValChar
    rw [List.getD_eq_default]
    · decide
    · exact le_trans (by decide) h

theorem colon_not_mem_b64encodeList (bs : List Nat) : ¬(':' ∈ b64encodeList bs) := by
  induction bs using b64encodeList.induct with
  | case1 => simp [b64encodeList]
  | case2 a =>
    intro h
    simp [b64encodeList] at h
    rcases h with h | h
    · exact b64ValChar_ne_colon _ h.symm
    · exact b64ValChar_ne_colon _ h.symm
  | case3 a b =>
    intro h
    simp [b64encodeList] at h
    rcases h with h | h | h
    · exact b64ValChar_ne_colon _ h.symm
    · exact b64ValChar_ne_colon _ h.symm
    · exact b64ValChar_ne_colon _ h.symm
  | case4 a b c rest ih =>
    intro h
    simp [b64encodeList] at h
    rcases h with h | h | h | h | h
    · exact b64ValChar_ne_colon _ h.symm
    · exact b64ValChar_ne_colon _ h.symm
    · exact b64ValChar_ne_colon _ h.symm
    · exact b64ValChar_ne_colon _ h.symm
    · exact ih h

theorem listIsPrefix_mem :
    ∀ {as bs : List Char}, listIsPrefix as bs = true → ∀ c ∈ as, c ∈ bs := by
  intro as
  induction as with
  | nil => intro bs _ c hc; cases hc
  | cons a as ih =>
    intro bs h c hc
    cases bs with
    | nil => simp [listIsPrefix] at h
    | cons b bs =>
      simp [listIsPrefix] at h
      rcases List.mem_cons.mp hc with hc | hc
      · subst hc; rw [h.1]; exact List.mem_cons_self _ _
      · exact List.mem_cons.mpr (Or.inr (ih h.2 c hc))

theorem b64encodeStr_no_data_prefix (bs : List Nat) :
    pyStartsWith (b64encodeStr bs) "data:" = false := by
  cases hc : pyStartsWith (b64encodeStr bs) "data:" with
  | false => rfl
  | true =>
    exfalso
    have h1 : listIsPrefix "data:".toList (b64encodeList bs) = true := by
      simpa [pyStartsWith, b64encodeStr] using hc
    exact colon_not_mem_b64encodeList bs (listIsPrefix_mem h1 ':' (by decide))

theorem append_ne_empty_of_ne {a : String} (b : String) (h : ¬(a.data = [])) :
    ¬(a ++ b = "") := by
  intro h0
  apply h
  have h1 := congrArg String.data h0
  rw [String.data_append] at h1
  exact (List.append_eq_nil.mp h1).1

def savedRec (newId : String) (now : Int) (len : Nat) (ct : String) : ImageRec :=
  { image_id := newId
    local_path := newId ++ get_extension ct
    r2_key := "openwebui/" ++ newId ++ get_extension ct
    size_bytes := len
    content_type := ct
    has_local_copy := true
    has_r2_copy := false
    upload_status := "pending"
    upload_error := ""
    created_at := now
    last_accessed_at := now }

def savedState (st : StoreState) (newId : String) (now : Int) (bs : List Nat)
    (ct : String) : StoreState :=
  { st with
    files := setFile st.files (newId ++ get_extension ct) bs
    records := st.records ++ [savedRec newId now bs.length ct] }

/-- C2: saving a valid base64 payload yields a record carrying the fresh
id, and reading that id back (before any eviction) returns exactly the
saved base64 string. -/
theorem C2_save_get_roundtrip (st : StoreState) (settings : SettingsModel)
    (newId : String) (now : Int) (bs : List Nat) (ct : String)
    (hbytes : ∀ b ∈ bs, b < 256)
    (hfresh : ∀ x ∈ st.records, ¬(x.image_id = newId))
    (hstrip : pyStrip newId = newId)
    (hshape : uuidShape36 newId.toList = true) :
    ∃ rec1 st1,
      save_from_base64 st newId now (b64encodeStr bs) ct = Except.ok (rec1, st1) ∧
      rec1.image_id = newId ∧
      (get_base64 st1 settings newId).1 = some (b64encodeStr bs) := by
  have hne : ¬(newId.toList = []) := by
    intro h0
    rw [h0] at hshape
    exact absurd hshape (by decide)
  have hshape2 : uuidShape36 newId.data = true := hshape
  refine ⟨savedRec newId now bs.length ct, savedState st newId now bs ct, ?_, rfl, ?_⟩
  · simp [save_from_base64, savedRec, savedState, b64encodeStr_no_data_prefix,
      pyB64Decode_b64encodeStr bs hbytes, String.append_assoc]
  · have hfindr : findRec (savedState st newId now bs ct).records newId =
        some (savedRec newId now bs.length ct) := by
      simpa [savedState] using findRec_append_fresh hfresh rfl
    have hnempty : ¬(newId ++ get_extension ct = "") :=
      append_ne_empty_of_ne (get_extension ct) hne
    have hlookup : lookupFile (savedState st newId now bs ct).files
        (newId ++ get_extension ct) = some bs := lookupFile_setFile _ _ _
    have hne2 : ¬(newId.data = []) := hne
    simp [get_base64, hstrip, hshape, hshape2, hne, hne2, get_local_path, hfindr,
      hnempty, hlookup, savedRec]

/-- C2 witness: a concrete three-byte image round-trips through
save and get. -/
theorem C2_witness :
    ∃ rec1 st1,
      save_from_base64 { records := [], files := [], remote := [] }
          "12345678-1234-1234-1234-123456789abc" 0
          (b64encodeStr [1, 2, 3]) "image/png" = Except.ok (rec1, st1) ∧
      rec1.image_id = "12345678-1234-1234-1234-123456789abc" ∧
      (get_base64 st1 defaultSettings "12345678-1234-1234-1234-123456789abc").1 =
        some (b64encodeStr [1, 2, 3]) :=
  C2_save_get_roundtrip { records := [], files := [], remote := [] } defaultSettings
    "12345678-1234-1234-1234-123456789abc" 0 [1, 2, 3] "image/png"
    (by decide) (fun x hx => absurd hx (List.not_mem_nil x)) (by decide) (by decide)

theorem lookupFile_removeFile_ne (fs : List (String × List Nat)) {p q : String}
    (h : ¬(p = q)) : lookupFile (removeFile fs q) p = lookupFile fs p := by
  have hqp : ¬(q = p) := fun h2 => h h2.symm
  induction fs with
  | nil => rfl
  | cons x rest ih =>
    by_cases hq : x.1 = q
    · have hp : ¬(x.1 = p) := by
        rw [hq]
        exact hqp
      simp [removeFile, lookupFile, List.filter_cons, hq, hp, hqp] at ih ⊢
      exact ih
    · by_cases hp : x.1 = p
      · simp [removeFile, lookupFile, List.filter_cons, hq, hp, hqp, h]
      · simp [removeFile, lookupFile, List.filter_cons, hq, hp, hqp, h] at ih ⊢
        exact ih

/-- The running `file_size_mb` total the quota loop subtracts for a
prefix of the sorted records, given each record\x27s on-disk bytes. -/
def mbSum (sz : ImageRec → List Nat) (l : List ImageRec) : ℚ :=
  (l.map (fun r => ((sz r).length : ℚ) / (1024 * 1024))).sum

theorem quotaLoop_spec (sz : ImageRec → List Nat) :
    ∀ (sorted : List ImageRec) (files : List (String × List Nat)) (current target : ℚ),
    (∀ r ∈ sorted, ¬(r.local_path = "")) →
    (∀ r ∈ sorted, lookupFile files r.local_path = some (sz r)) →
    ((sorted.map (fun r => r.local_path)).Nodup) →
    ∃ k, k ≤ sorted.length ∧
      (quotaLoop files sorted current target).2.1 =
        (sorted.take k).map (fun r => r.image_id) ∧
      (quotaLoop files sorted current target).2.2 =
        (sorted.take k).map (fun r => r.local_path) ∧
      (∀ j, j < k → target < current - mbSum sz (sorted.take j)) ∧
      (k < sorted.length → current - mbSum sz (sorted.take k) ≤ target) := by
  intro sorted
  induction sorted with
  | nil =>
    intro files current target _ _ _
    exact ⟨0, by simp [quotaLoop, mbSum]⟩
  | cons r rest ih =>
    intro files current target hpath hpres hnodup
    by_cases hc : current ≤ target
    · refine ⟨0, by simp, ?_, ?_, ?_, ?_⟩
      · simp [quotaLoop, hc]
      · simp [quotaLoop, hc]
      · intro j hj
        exact absurd hj (Nat.not_lt_zero j)
      · intro _
        simpa [mbSum] using hc
    · have hpr : ¬(r.local_path = "") := hpath r (by simp)
      have hlk : lookupFile files r.local_path = some (sz r) := hpres r (by simp)
      have hpath2 : ∀ x ∈ rest, ¬(x.local_path = "") :=
        fun x hx => hpath x (by simp [hx])
      rw [List.map_cons, List.nodup_cons] at hnodup
      obtain ⟨hhd, hnd2⟩ := hnodup
      have hne2 : ∀ x ∈ rest, ¬(x.local_path = r.local_path) := by
        intro x hx heq
        exact hhd (List.mem_map.mpr ⟨x, hx, heq⟩)
      have hpres2 : ∀ x ∈ rest,
          lookupFile (removeFile files r.local_path) x.local_path = some (sz x) := by
        intro x hx
        rw [lookupFile_removeFile_ne files (hne2 x hx)]
        exact hpres x (by simp [hx])
      obtain ⟨k, hk, h1, h2, h3, h4⟩ :=
        ih (removeFile files r.local_path)
          (current - ((sz r).length : ℚ) / (1024 * 1024)) target hpath2 hpres2 hnd2
      refine ⟨k + 1, by simpa using Nat.succ_le_succ hk, ?_, ?_, ?_, ?_⟩
      · simp [quotaLoop, hc, hpr, hlk, h1]
      · simp [quotaLoop, hc, hpr, hlk, h2]
      · intro j hj
        cases j with
        | zero =>
          simpa [mbSum] using lt_of_not_le hc
        | succ i =>
          have hi := h3 i (Nat.lt_of_succ_lt_succ hj)
          simp [mbSum, List.take_succ_cons] at hi ⊢
          linarith
      · intro hlt
        have hs := h4 (Nat.lt_of_succ_lt_succ hlt)
        simp [mbSum, List.take_succ_cons] at hs ⊢
        linarith

theorem mem_insertByCreated {y r : ImageRec} :
    ∀ {l : List ImageRec}, y ∈ insertByCreated r l ↔ y = r ∨ y ∈ l := by
  intro l
  induction l with
  | nil => simp [insertByCreated]
  | cons x xs ih =>
    by_cases hc : x.created_at ≤ r.created_at
    · simp only [insertByCreated, if_pos hc, List.mem_cons, ih]
      tauto
    · simp only [insertByCreated, if_neg hc, List.mem_cons]

theorem pairwise_insertByCreated {r : ImageRec} :
    ∀ {l : List ImageRec},
    l.Pairwise (fun a b => a.created_at ≤ b.created_at) →
    (insertByCreated r l).Pairwise (fun a b => a.created_at ≤ b.created_at) := by
  intro l
  induction l with
  | nil =>
    intro _
    simp [insertByCreated]
  | cons x xs ih =>
    intro h
    rw [List.pairwise_cons] at h
    by_cases hc : x.created_at ≤ r.created_at
    · simp only [insertByCreated, if_pos hc]
      rw [List.pairwise_cons]
      refine ⟨?_, ih h.2⟩
      intro y hy
      rcases mem_insertByCreated.mp hy with hy | hy
      · rw [hy]
        exact hc
      · exact h.1 y hy
    · simp only [insertByCreated, if_neg hc]
      rw [List.pairwise_cons]
      refine ⟨?_, ?_⟩
      · intro y hy
        rcases List.mem_cons.mp hy with hy | hy
        · rw [hy]
          exact le_of_lt (lt_of_not_le hc)
        · exact le_trans (le_of_lt (lt_of_not_le hc)) (h.1 y hy)
      · rw [List.pairwise_cons]
        exact h

theorem perm_insertByCreated (r : ImageRec) :
    ∀ (l : List ImageRec), (insertByCreated r l).Perm (r :: l) := by
  intro l
  induction l with
  | nil => simp [insertByCreated]
  | cons x xs ih =>
    by_cases hc : x.created_at ≤ r.created_at
    · simp only [insertByCreated, if_pos hc]
      exact (List.Perm.cons x ih).trans (List.Perm.swap r x xs)
    · simp [insertByCreated, hc]

theorem sortByCreated_pairwise (l : List ImageRec) :
    (sortByCreated l).Pairwise (fun a b => a.created_at ≤ b.created_at) := by
  induction l with
  | nil => simp [sortByCreated]
  | cons r rest ih => exact pairwise_insertByCreated ih

theorem sortByCreated_perm (l : List ImageRec) : (sortByCreated l).Perm l := by
  induction l with
  | nil => simp [sortByCreated]
  | cons r rest ih =>
    exact (perm_insertByCreated r (sortByCreated rest)).trans (List.Perm.cons r ih)

/-- The `created_at ASC` record list the quota pass iterates over. -/
def quotaSorted (st : StoreState) : List ImageRec :=
  sortByCreated (st.records.filter (fun r => r.has_local_copy))

/-- The `current_mb` usage figure of the quota pass. -/
def currentMBQ (st : StoreState) : ℚ :=
  (dirSizeBytes st.files : ℚ) / (1024 * 1024)

/-- The `target_mb = max_mb * 0.9` stopping threshold of the quota pass. -/
def targetMBQ (settings : SettingsModel) : ℚ :=
  (settings.max_local_cache_mb : ℚ) * (9 / 10)

/-- C8: the quota pass is a no-op when no limit is set or usage is within
the limit; otherwise it walks the `has_local_copy` records in ascending
`created_at` order (a sorted permutation of them), deletes exactly the
files of the first `k` records, clears `has_local_copy` on those ids,
keeps deleting only while usage still exceeds 90% of the limit, and stops
as soon as the computed usage falls to at most that threshold. -/
theorem C8_quota_eviction (st : StoreState) (settings : SettingsModel)
    (sz : ImageRec → List Nat)
    (hpath : ∀ r ∈ quotaSorted st, ¬(r.local_path = ""))
    (hpres : ∀ r ∈ quotaSorted st, lookupFile st.files r.local_path = some (sz r))
    (hnodup : ((quotaSorted st).map (fun r => r.local_path)).Nodup) :
    (settings.max_local_cache_mb = 0 → check_cache_size_limit st settings = (st, [])) ∧
    (currentMBQ st ≤ (settings.max_local_cache_mb : ℚ) →
      check_cache_size_limit st settings = (st, [])) ∧
    (quotaSorted st).Pairwise (fun a b => a.created_at ≤ b.created_at) ∧
    (quotaSorted st).Perm (st.records.filter (fun r => r.has_local_copy)) ∧
    (¬(settings.max_local_cache_mb = 0) →
     ¬(currentMBQ st ≤ (settings.max_local_cache_mb : ℚ)) →
     ¬(quotaSorted st = []) →
     ∃ k, 1 ≤ k ∧ k ≤ (quotaSorted st).length ∧
       check_cache_size_limit st settings =
         ({ st with
            files := (quotaLoop st.files (quotaSorted st) (currentMBQ st)
              (targetMBQ settings)).1
            records := st.records.map (fun r =>
              if r.image_id ∈ ((quotaSorted st).take k).map (fun x => x.image_id)
              then { r with has_local_copy := false } else r) },
          ((quotaSorted st).take k).map (fun r => r.local_path)) ∧
       (∀ j, j < k →
          targetMBQ settings < currentMBQ st - mbSum sz ((quotaSorted st).take j)) ∧
       (k < (quotaSorted st).length →
          currentMBQ st - mbSum sz ((quotaSorted st).take k) ≤ targetMBQ settings)) := by
  refine ⟨?_, ?_, sortByCreated_pairwise _, sortByCreated_perm _, ?_⟩
  · intro h
    simp [check_cache_size_limit, h]
  · intro h
    by_cases h0 : settings.max_local_cache_mb = 0
    · simp [check_cache_size_limit, h0]
    · simp only [check_cache_size_limit, if_neg h0]
      rw [if_pos (by simpa [currentMBQ] using h)]
  · intro hnz hover hnonnil
    obtain ⟨k, hk, h1, h2, h3, h4⟩ :=
      quotaLoop_spec sz (quotaSorted st) st.files (currentMBQ st) (targetMBQ settings)
        hpath hpres hnodup
    have hmaxpos : (0 : ℚ) < (settings.max_local_cache_mb : ℚ) := by
      exact_mod_cast Nat.pos_of_ne_zero hnz
    have htlt : targetMBQ settings < currentMBQ st := by
      have h5 : targetMBQ settings < (settings.max_local_cache_mb : ℚ) := by
        unfold targetMBQ
        linarith
      exact lt_trans h5 (lt_of_not_le hover)
    have hk1 : 1 ≤ k := by
      rcases Nat.eq_zero_or_pos k with hk0 | hk0
      · exfalso
        have hlen : 0 < (quotaSorted st).length :=
          List.length_pos.mpr hnonnil
        have := h4 (by rw [hk0]; exact hlen)
        rw [hk0] at this
        simp [mbSum] at this
        exact absurd this (not_le.mpr htlt)
      · exact hk0
    have hdelne : ¬(((quotaSorted st).take k).map (fun r => r.local_path) = []) := by
      intro h0
      have h5 : (quotaSorted st).take k = [] := List.map_eq_nil.mp h0
      have h6 : (quotaSorted st).take k ≠ [] := by
        apply List.ne_nil_of_length_pos
        rw [List.length_take]
        have hlen : 0 < (quotaSorted st).length := List.length_pos.mpr hnonnil
        omega
      exact h6 h5
    refine ⟨k, hk1, hk, ?_, h3, h4⟩
    simp only [check_cache_size_limit, if_neg hnz]
    rw [if_neg (by simpa [currentMBQ] using hover)]
    have hq1 : (quotaLoop st.files
        (sortByCreated (st.records.filter (fun r => r.has_local_copy)))
        ((dirSizeBytes st.files : ℚ) / (1024 * 1024))
        ((settings.max_local_cache_mb : ℚ) * (9 / 10))).2.2 =
        ((quotaSorted st).take k).map (fun r => r.local_path) := by
      rw [show sortByCreated (st.records.filter (fun r => r.has_local_copy)) =
        quotaSorted st from rfl]
      rw [show ((dirSizeBytes st.files : ℚ) / (1024 * 1024)) = currentMBQ st from rfl]
      rw [show ((settings.max_local_cache_mb : ℚ) * (9 / 10)) = targetMBQ settings from rfl]
      exact h2
    rw [hq1, if_neg hdelne]
    have hq2 : (quotaLoop st.files
        (sortByCreated (st.records.filter (fun r => r.has_local_copy)))
        ((dirSizeBytes st.files : ℚ) / (1024 * 1024))
        ((settings.max_local_cache_mb : ℚ) * (9 / 10))).2.1 =
        ((quotaSorted st).take k).map (fun x => x.image_id) := h1
    rw [hq2]
    rfl

/-- The two-record store used to exhibit the quota pass. -/
def c8WitnessState : StoreState :=
  { records := [
      { image_id := "a", local_path := "a.png", r2_key := "", size_bytes := 3,
        content_type := "image/png", has_local_copy := true, has_r2_copy := false,
        upload_status := "pending", upload_error := "", created_at := 5,
        last_accessed_at := 5 },
      { image_id := "b", local_path := "b.png", r2_key := "", size_bytes := 2,
        content_type := "image/png", has_local_copy := true, has_r2_copy := false,
        upload_status := "pending", upload_error := "", created_at := 1,
        last_accessed_at := 1 }]
    files := [("a.png", [1, 2, 3]), ("b.png", [4, 5])]
    remote := [] }

/-- C8 witness: concrete two-record store with the limit disabled. -/
theorem C8_witness :
    check_cache_size_limit c8WitnessState defaultSettings = (c8WitnessState, []) := by
  have h := C8_quota_eviction c8WitnessState defaultSettings
    (fun r => if r.local_path = "a.png" then [1, 2, 3] else [4, 5])
    (by decide) (by decide) (by decide)
  exact h.1 (by decide)

end PicGate
